import Mathlib

/-!
Verification development for the trading stack: shallow embeddings of the
position risk-management logic (`improved_anomaly_strategy.py`,
`mean_reversion_strategy.py`), the Wilder-smoothed RSI oscillator
(`app/indicators.py`), the anomaly signal kernel (`compare_strategies.py`),
the alert/trading idempotency logic (`app/alerts.py`, `app/trading.py`,
`app/realtime.py`) and the alert backtest engine (`app/backtest/engine.py`).
Prices and percentages are modelled as rationals; timestamps as integers
(days for the daily logic, abstract ticks for candle stores).
-/

namespace ImprovedAnomaly

/-- Embedding of `Position` from `improved_anomaly_strategy.py` (lines 21-51).
Only the numeric fields used by the risk-management logic are kept
(`entry_date` and `position_size` play no role in the stop logic). -/
structure Position where
  shares : ℚ
  entry_price : ℚ
  highest_price : ℚ
  stop_loss_price : ℚ
  trailing_stop_price : ℚ
  trailing_stop_pct : ℚ
  deriving Repr, DecidableEq

/-- Constructor mirroring `Position.__init__`: highest starts at entry,
stop-loss and trailing stop start 5% below entry, trailing pct 5%. -/
def Position.make (shares entry_price : ℚ) : Position :=
  { shares := shares
    entry_price := entry_price
    highest_price := entry_price
    stop_loss_price := entry_price * (95 / 100)
    trailing_stop_price := entry_price * (95 / 100)
    trailing_stop_pct := 5 / 100 }

/-- Embedding of `Position.update_trailing_stop` (lines 34-39): if the price
makes a new high, ratchet the high and recompute the trailing stop. -/
def update_trailing_stop (p : Position) (current_price : ℚ) : Position :=
  if p.highest_price < current_price then
    { p with
        highest_price := current_price
        trailing_stop_price := current_price * (1 - p.trailing_stop_pct) }
  else p

/-- Embedding of `Position.should_stop_loss` (lines 41-43). -/
def should_stop_loss (p : Position) (current_price : ℚ) : Bool :=
  current_price ≤ p.stop_loss_price

/-- Embedding of `Position.should_trailing_stop` (lines 45-47). -/
def should_trailing_stop (p : Position) (current_price : ℚ) : Bool :=
  current_price ≤ p.trailing_stop_price

/-- Exit reasons recorded by the backtest loop for a risk-management sell. -/
inductive ExitReason where
  | STOP_LOSS
  | TRAILING_STOP
  deriving Repr, DecidableEq

/-- One price tick applied to one open position, as in
`ImprovedAnomalyTradingStrategy.backtest_strategy` lines 351-407:
the trailing stop is ratcheted first, then stop-loss is checked, then
(`elif`) the trailing stop.  The updated position state is returned even
when no exit fires. -/
def onPriceTick (p : Position) (current_price : ℚ) : Position × Option ExitReason :=
  let p := update_trailing_stop p current_price
  if should_stop_loss p current_price then (p, some .STOP_LOSS)
  else if should_trailing_stop p current_price then (p, some .TRAILING_STOP)
  else (p, none)

/-- State trajectory of a single position over a sequence of price ticks. -/
def trajectory (p : Position) (prices : List ℚ) : List Position :=
  prices.scanl (fun q c => (onPriceTick q c).1) p

/-- Final state of a single position after a sequence of price ticks. -/
def runTicks (p : Position) (prices : List ℚ) : Position :=
  prices.foldl (fun q c => (onPriceTick q c).1) p

/-- Well-formedness of a position for the ratchet invariants: the trailing
percentage is a percentage, the high is at least the entry, and the trailing
stop sits no higher than `highest * (1 - pct)` (equality at creation). -/
def Inv (p : Position) : Prop :=
  0 ≤ p.trailing_stop_pct ∧ p.trailing_stop_pct ≤ 1 ∧
    p.entry_price ≤ p.highest_price ∧
    p.trailing_stop_price ≤ p.highest_price * (1 - p.trailing_stop_pct)

/-- The literal exit-precedence scenario from the spec: entry 100, 5% stop
(stop price 95), 5% trailing stop ratcheted to a high of 110 (trailing price
104.5), and the position state built the way `backtest_strategy` lines
428-436 build it (entry-derived stop prices, configured percentages). -/
def scenarioPosition : Position :=
  { shares := 1
    entry_price := 100
    highest_price := 110
    stop_loss_price := 100 * (1 - 5 / 100)
    trailing_stop_price := 110 * (1 - 5 / 100)
    trailing_stop_pct := 5 / 100 }

end ImprovedAnomaly

namespace MeanReversion

/-- Position bookkeeping used by `MeanReversionStrategy.check_exit_conditions`
(`mean_reversion_strategy.py` lines 274-320): entry price, the ATR captured at
entry, the running high, and the TP1 flag. -/
structure MRPosition where
  entry_price : ℚ
  atr_at_entry : ℚ
  highest_price : ℚ
  tp1_hit : Bool
  deriving Repr, DecidableEq

/-- Indicator snapshot consumed by the exit check: current price, the 20-day
moving average (TP1 reference) and the 20-day median (TP2 reference). -/
structure MRIndicators where
  current_price : ℚ
  ma_20 : ℚ
  median_20 : ℚ
  deriving Repr, DecidableEq

/-- Exit reasons returned by `check_exit_conditions`. -/
inductive MRExit where
  | INITIAL_STOP
  | TRAILING_STOP
  | TP1_20DMA
  | TP2_MEDIAN_1SIGMA
  | TIME_STOP_3DAYS
  deriving Repr, DecidableEq

/-- Embedding of `MeanReversionStrategy.check_exit_conditions` (lines 274-320).
Conditions are tested in order with an early return: initial stop
(entry - 1.5*ATR), trailing stop (highest - 2.5*ATR, computed from the high
captured before this tick's ratchet, exactly as the Python local variable is),
TP1 at the 20DMA (scale out 50%, set the flag), TP2 at median + 1 sigma
(only after TP1), then the 3-day time stop.  Returns the mutated position and
`some (reason, fraction-of-shares-to-exit)` or `none`. -/
def check_exit_conditions (ind : MRIndicators) (pos : MRPosition)
    (days_held : ℤ) : MRPosition × Option (MRExit × ℚ) :=
  let current_price := ind.current_price
  let initial_stop := pos.entry_price - (3 / 2 : ℚ) * pos.atr_at_entry
  if current_price ≤ initial_stop then (pos, some (.INITIAL_STOP, 1))
  else
    let highest_price := pos.highest_price
    let pos := if highest_price < current_price then
        { pos with highest_price := current_price } else pos
    let trailing_stop := highest_price - (5 / 2 : ℚ) * pos.atr_at_entry
    if current_price ≤ trailing_stop then (pos, some (.TRAILING_STOP, 1))
    else if ind.ma_20 ≤ current_price ∧ pos.tp1_hit = false then
      ({ pos with tp1_hit := true }, some (.TP1_20DMA, 1 / 2))
    else
      let median_plus_1sigma := ind.median_20 + ind.median_20 * (2 / 100 : ℚ)
      if median_plus_1sigma ≤ current_price ∧ pos.tp1_hit = true then
        (pos, some (.TP2_MEDIAN_1SIGMA, 1))
      else if (3 : ℤ) ≤ days_held then (pos, some (.TIME_STOP_3DAYS, 1))
      else (pos, none)

end MeanReversion

namespace App

/-- A stored OHLC candle (`app/models.py` `Candle`); the `open` and `volume`
fields are omitted because none of the modelled functions read them. -/
structure Candle where
  ts : ℤ
  high : ℚ
  low : ℚ
  close : ℚ
  deriving Repr, DecidableEq

end App

namespace Indicators

/-- Per-step gain: `deltas.where(deltas > 0, 0.0)` in
`RsiCalculator.compute_rsi_wilder` (`app/indicators.py` line 47). -/
def gainOf (d : ℚ) : ℚ := if 0 < d then d else 0

/-- Per-step loss: `-deltas.where(deltas < 0, 0.0)` (line 48). -/
def lossOf (d : ℚ) : ℚ := if d < 0 then -d else 0

/-- Price deltas `closes.diff()` as a list: element `j` is
`closes[j+1] - closes[j]` (the pandas series' leading NaN is dropped;
the code never reads it because gains/losses are sliced from index 1). -/
def deltasOf (closes : List ℚ) : List ℚ :=
  List.zipWith (fun a b => a - b) closes.tail closes

/-- The RSI value from a smoothed (gain, loss) pair, with the
divide-by-zero guard of lines 57-61 / 72-76: `avg_loss == 0` gives 100. -/
def rsiPoint (avg_gain avg_loss : ℚ) : ℚ :=
  if avg_loss = 0 then 100 else 100 - 100 / (1 + avg_gain / avg_loss)

/-- One Wilder smoothing step (lines 69-70):
`avg = (avg * (period - 1) + current) / period` for gain and loss. -/
def stepAvgs (period : ℕ) (d : ℚ) (p : ℚ × ℚ) : ℚ × ℚ :=
  ((p.1 * ((period : ℚ) - 1) + gainOf d) / period,
   (p.2 * ((period : ℚ) - 1) + lossOf d) / period)

/-- The continuation loop of lines 64-76: starting from a smoothed pair,
consume the remaining deltas one by one and emit an RSI value per delta. -/
def wilderLoop (period : ℕ) (avg_gain avg_loss : ℚ) :
    List ℚ → List ℚ
  | [] => []
  | d :: rest =>
    let p := stepAvgs period d (avg_gain, avg_loss)
    rsiPoint p.1 p.2 :: wilderLoop period p.1 p.2 rest

/-- Embedding of `RsiCalculator.compute_rsi_wilder` (lines 22-78): with fewer
than `period + 1` closes the result is all-`none` (the all-NaN series of line
41); otherwise the first `period` outputs are `none`, index `period` carries
the RSI of the simple averages over the first `period` deltas (lines 54-61),
and each later index is produced by the Wilder recurrence. -/
def compute_rsi_wilder (period : ℕ) (closes : List ℚ) : List (Option ℚ) :=
  if closes.length < period + 1 then List.replicate closes.length none
  else
    let ds := deltasOf closes
    let avg_gain := ((ds.take period).map gainOf).sum / period
    let avg_loss := ((ds.take period).map lossOf).sum / period
    List.replicate period none ++
      (some (rsiPoint avg_gain avg_loss) ::
        (wilderLoop period avg_gain avg_loss (ds.drop period)).map some)

/-- Index-based delta `close_{j+1} - close_j`, used to state the
initialization and recurrence claims independently of the list plumbing. -/
def deltaAt (closes : List ℚ) (j : ℕ) : ℚ :=
  closes.getD (j + 1) 0 - closes.getD j 0

/-- Specification-side smoothed averages at offset `k` past the
initialization index: offset 0 is the simple average of the deltas at close
indices 1..period (the spec's `mean(gain_1..gain_P)`), and each next offset
applies the Wilder recurrence to the delta at close index `period + k + 1`. -/
def avgsFrom (period : ℕ) (closes : List ℚ) : ℕ → ℚ × ℚ
  | 0 =>
    ((∑ t ∈ Finset.range period, gainOf (deltaAt closes t)) / period,
     (∑ t ∈ Finset.range period, lossOf (deltaAt closes t)) / period)
  | k + 1 => stepAvgs period (deltaAt closes (period + k)) (avgsFrom period closes k)

/-- Folding the Wilder step over a list of deltas, used to relate the
continuation loop to the index-based recurrence. -/
def foldAvg (period : ℕ) (p : ℚ × ℚ) (l : List ℚ) : ℚ × ℚ :=
  l.foldl (fun q d => stepAvgs period d q) p

/-- The end-to-end scenario closes: 15 increasing values 100..114. -/
def scenarioCloses : List ℚ :=
  [100, 101, 102, 103, 104, 105, 106, 107, 108, 109, 110, 111, 112, 113, 114]

/-- Embedding of the `compute_rsi_for_symbol` flow (`app/indicators.py` lines
80-153) restricted to its computational content: with fewer than `period + 1`
candles it returns a stored count of 0 (lines 114-116); otherwise the stored
count is the number of non-NaN entries of the computed series (lines 129-150
count both inserts and updates of non-NaN values). -/
def compute_rsi_for_symbol (period : ℕ) (candles : List App.Candle) : ℕ :=
  if candles.length < period + 1 then 0
  else ((compute_rsi_wilder period (candles.map App.Candle.close)).filterMap id).length

end Indicators

namespace CompareStrategies

/-- Anomaly condition tags appended by `CurrentAnomalyStrategy.check_signals`
(`compare_strategies.py` lines 125-155). -/
inductive Tag where
  | oversold
  | extreme_drop
  | gap_down
  | rsi_oversold
  | overbought
  | extreme_rise
  | gap_up
  | rsi_overbought
  deriving Repr, DecidableEq

/-- Signal direction as resolved on lines 157-168. -/
inductive SigType where
  | BUY
  | SELL
  | MIXED
  deriving Repr, DecidableEq

/-- Action of the returned signal dict. -/
inductive Action where
  | BUY
  | SELL
  | HOLD
  deriving Repr, DecidableEq

/-- Structured model of the `reason` strings returned by `check_signals`,
one constructor per return site, carrying the values the f-strings
interpolate (`belowSeverity` models
`f'No anomaly or severity {severity:.2f} < {min_severity}'`;
the 2-decimal display rounding is elided). -/
inductive CheckReason where
  | belowSeverity (severity min_severity : ℚ)
  | tags (anomalies : List Tag)
  | noClear
  deriving Repr, DecidableEq

/-- Result of one `check_signals` evaluation. -/
structure CheckResult where
  action : Action
  reason : CheckReason
  deriving Repr, DecidableEq

/-- One conditional anomaly check: when the condition holds, append the tag
and add the severity contribution (one `if` of lines 126-155). -/
def condStep (c : Prop) [Decidable c] (t : Tag) (s : ℚ)
    (acc : List Tag × ℚ) : List Tag × ℚ :=
  if c then (acc.1 ++ [t], acc.2 + s) else acc

/-- The tag list and summed severity built by the eight sequential condition
checks of lines 126-155, applied in source order (innermost first).  Inputs
are the already-computed indicator values: z-score, single-bar percent
change, gap percent, RSI. -/
def tagsAndSeverity (z pc gap rsi : ℚ) : List Tag × ℚ :=
  condStep (70 < rsi) .rsi_overbought ((rsi - 70) / 10)
    (condStep (2 < gap) .gap_up (|gap| / 2)
      (condStep (3 < pc) .extreme_rise (|pc| / 3)
        (condStep (2 < z) .overbought |z|
          (condStep (rsi < 30) .rsi_oversold ((30 - rsi) / 10)
            (condStep (gap < -2) .gap_down (|gap| / 2)
              (condStep (pc < -3) .extreme_drop (|pc| / 3)
                (condStep (z < -2) .oversold |z| ([], 0))))))))

/-- Buy-side tag battery (line 158). -/
def buy_signals : List Tag := [.oversold, .extreme_drop, .gap_down, .rsi_oversold]

/-- Sell-side tag battery (line 159). -/
def sell_signals : List Tag := [.overbought, .extreme_rise, .gap_up, .rsi_overbought]

/-- Direction resolution of lines 161-168: a buy tag makes the candidate BUY;
a sell tag then turns BUY into MIXED, otherwise makes it SELL. -/
def signal_type (anomalies : List Tag) : Option SigType :=
  let st : Option SigType :=
    if ∃ s ∈ buy_signals, s ∈ anomalies then some .BUY else none
  if ∃ s ∈ sell_signals, s ∈ anomalies then
    (if st = some SigType.BUY then some .MIXED else some .SELL)
  else st

/-- Decision kernel of `check_signals` (lines 125-187), taking the computed
indicator inputs.  Lines 170-171: no tags or severity below threshold give
HOLD with the severity-rejection reason; otherwise BUY for BUY/MIXED,
SELL for SELL, and the unreachable fall-through HOLD of line 187. -/
def check_signals_core (z pc gap rsi min_severity : ℚ) : CheckResult :=
  let anomalies := (tagsAndSeverity z pc gap rsi).1
  let severity := (tagsAndSeverity z pc gap rsi).2
  let st := signal_type anomalies
  if anomalies = [] ∨ severity < min_severity then
    { action := .HOLD, reason := .belowSeverity severity min_severity }
  else if st = some SigType.BUY ∨ st = some SigType.MIXED then
    { action := .BUY, reason := .tags anomalies }
  else if st = some SigType.SELL then
    { action := .SELL, reason := .tags anomalies }
  else
    { action := .HOLD, reason := .noClear }

/-- Individual severity contributions, one per condition, as named in the
spec: these are the amounts the eight `severity +=` statements add. -/
def zBuyContrib (z : ℚ) : ℚ := if z < -2 then |z| else 0

/-- Severity contribution of the extreme single-bar drop condition. -/
def dropContrib (pc : ℚ) : ℚ := if pc < -3 then |pc| / 3 else 0

/-- Severity contribution of the gap-down condition. -/
def gapDownContrib (gap : ℚ) : ℚ := if gap < -2 then |gap| / 2 else 0

/-- Severity contribution of the RSI-oversold condition. -/
def rsiLowContrib (rsi : ℚ) : ℚ := if rsi < 30 then (30 - rsi) / 10 else 0

/-- Severity contribution of the z-score overbought condition. -/
def zSellContrib (z : ℚ) : ℚ := if 2 < z then |z| else 0

/-- Severity contribution of the extreme single-bar rise condition. -/
def riseContrib (pc : ℚ) : ℚ := if 3 < pc then |pc| / 3 else 0

/-- Severity contribution of the gap-up condition. -/
def gapUpContrib (gap : ℚ) : ℚ := if 2 < gap then |gap| / 2 else 0

/-- Severity contribution of the RSI-overbought condition. -/
def rsiHighContrib (rsi : ℚ) : ℚ := if 70 < rsi then (rsi - 70) / 10 else 0

end CompareStrategies

namespace Alerts

/-- An RSI cross-under event (`app/alerts.py` `RsiCrossUnderEvent`). -/
structure RsiCrossUnderEvent where
  symbol : String
  ts : ℤ
  rsi_value : ℚ
  price : ℚ
  deriving Repr, DecidableEq

/-- A stored alert row (`app/models.py` `Alert`), with the fields
`create_alert` writes. -/
structure Alert where
  symbol : String
  ts : ℤ
  rsi_value : ℚ
  price : ℚ
  status : String
  take_profit_pct : ℚ
  max_holding_days : ℤ
  deriving Repr, DecidableEq

/-- Whether a stored alert matches an event's (symbol, timestamp) key, the
`filter_by(symbol=…, ts=…)` predicate of `create_alert` (lines 116-119). -/
def matchesEvent (e : RsiCrossUnderEvent) (a : Alert) : Bool :=
  a.symbol == e.symbol && a.ts == e.ts

/-- Embedding of `AlertService.create_alert` (`app/alerts.py` lines 93-152)
over an explicit alert store: if an alert for the event's (symbol, ts)
already exists it is returned and the store is untouched (lines 121-123);
otherwise a new alert with config-supplied trade parameters is stored
(lines 126-137). -/
def create_alert (cfg_tp : ℚ) (cfg_days : ℤ) (store : List Alert)
    (event : RsiCrossUnderEvent) : Alert × List Alert :=
  match store.find? (matchesEvent event) with
  | some existing => (existing, store)
  | none =>
    let alert : Alert :=
      { symbol := event.symbol
        ts := event.ts
        rsi_value := event.rsi_value
        price := event.price
        status := "pending"
        take_profit_pct := cfg_tp
        max_holding_days := cfg_days }
    (alert, store ++ [alert])

end Alerts

namespace Trading

/-- The decision inputs of `TradeExecutor.execute_buy_order`
(`app/trading.py` lines 124-180): trading enabled flag, broker client
availability, whether a position for the symbol already exists (line 140),
the account's buying power if retrievable, the latest price if retrievable,
and the configured dollar position size. -/
structure BuyContext where
  enabled : Bool
  clientOk : Bool
  hasPosition : Bool
  buyingPower : Option ℚ
  currentPrice : Option ℚ
  position_size : ℚ
  deriving Repr, DecidableEq

/-- A submitted market buy order (symbol-free; quantity only). -/
structure BuyOrder where
  qty : ℤ
  deriving Repr, DecidableEq

/-- Embedding of the guard chain of `execute_buy_order`: each early `return
False` branch submits no order; only when every guard passes is a market
order for `int(position_size / current_price)` shares submitted.  Returns
the submitted order (if any) and the function's boolean result. -/
def execute_buy_order (ctx : BuyContext) : Option BuyOrder × Bool :=
  if ¬ ctx.enabled then (none, false)
  else if ¬ ctx.clientOk then (none, false)
  else if ctx.hasPosition then (none, false)
  else
    match ctx.buyingPower with
    | none => (none, false)
    | some bp =>
      if bp < ctx.position_size then (none, false)
      else
        match ctx.currentPrice with
        | none => (none, false)
        | some price =>
          let quantity : ℤ := ⌊ctx.position_size / price⌋
          if quantity < 1 then (none, false)
          else (some { qty := quantity }, true)

end Trading

namespace Realtime

/-- The `since` watermark of `RealtimeMonitor.update_candles_for_symbol`
(`app/realtime.py` lines 75-88): the timestamp of the stored candle with the
greatest `ts` (the `order_by(ts.desc()).first()` row), or the caller-supplied
fallback (`now - 1 day`) when the store is empty. -/
def sinceOf (fallback : ℤ) (store : List App.Candle) : ℤ :=
  match store with
  | [] => fallback
  | c :: rest => rest.foldl (fun m x => max m x.ts) c.ts

/-- Embedding of the candle-ingestion loop of `update_candles_for_symbol`
(lines 98-119): a fetched candle is stored only if its timestamp is strictly
greater than `since` AND no candle with the same timestamp is already
present. -/
def update_candles_for_symbol (fallback : ℤ) (store : List App.Candle)
    (new_candles : List App.Candle) : List App.Candle :=
  let since := sinceOf fallback store
  new_candles.foldl
    (fun s c =>
      if since < c.ts then
        if s.any (fun c' => c'.ts == c.ts) then s else s ++ [c]
      else s)
    store

end Realtime

namespace BacktestEngine

/-- Exit reasons of the alert backtest engine (`app/backtest/engine.py`). -/
inductive ExitWhy where
  | take_profit
  | max_holding
  | end_of_data
  deriving Repr, DecidableEq

/-- A simulated trade (`Trade` dataclass, lines 15-27), numeric fields only. -/
structure Trade where
  entry_time : ℤ
  entry_price : ℚ
  exit_time : ℤ
  exit_price : ℚ
  exit_reason : ExitWhy
  pnl : ℚ
  deriving Repr, DecidableEq

/-- The alert fields consumed by `simulate_trade`. -/
structure AlertRow where
  ts : ℤ
  take_profit_pct : ℚ
  max_holding_days : ℤ
  deriving Repr, DecidableEq

/-- The exit scan of `find_exit_candle` (lines 101-113): walk the candles
after entry in timestamp order; the first candle whose high reaches the
take-profit target exits with `take_profit`; otherwise the first candle at or
past the max-holding date exits with `max_holding`. -/
def exitScan (tp_price : ℚ) (max_date : ℤ) :
    List App.Candle → Option (App.Candle × ExitWhy)
  | [] => none
  | c :: rest =>
    if tp_price ≤ c.high then some (c, .take_profit)
    else if max_date ≤ c.ts then some (c, .max_holding)
    else exitScan tp_price max_date rest

/-- Embedding of `BacktestEngine.find_exit_candle` (lines 73-115): the
candles strictly after `entry_time` are scanned in order; if no exit
condition fires the last candle is returned with `end_of_data`, and with no
candles at all the result is `(none, end_of_data)`.  `candles` is the stored
sequence for the symbol, ordered by timestamp as the query orders it. -/
def find_exit_candle (entry_time : ℤ) (entry_price take_profit_pct : ℚ)
    (max_holding_days : ℤ) (candles : List App.Candle) :
    Option App.Candle × ExitWhy :=
  let take_profit_price := entry_price * (1 + take_profit_pct / 100)
  let max_holding_date := entry_time + max_holding_days
  let after := candles.filter (fun c => entry_time < c.ts)
  match after with
  | [] => (none, .end_of_data)
  | _ =>
    match exitScan take_profit_price max_holding_date after with
    | some (c, why) => (some c, why)
    | none =>
      match after.getLast? with
      | some c => (some c, .end_of_data)
      | none => (none, .end_of_data)

/-- The entry lookup of `find_entry_candle` (lines 52-71): the first candle
strictly after the alert timestamp. -/
def find_entry_candle (alert_time : ℤ) (candles : List App.Candle) :
    Option App.Candle :=
  (candles.filter (fun c => alert_time < c.ts)).head?

/-- The exit-price rule of `simulate_trade` lines 153-158: take-profit exits
are recorded at `min(target, close)`, all others at the candle close. -/
def exit_price_rule (why : ExitWhy) (take_profit_price : ℚ)
    (exit_candle : App.Candle) : ℚ :=
  if why = ExitWhy.take_profit then min take_profit_price exit_candle.close
  else exit_candle.close

/-- Embedding of `BacktestEngine.simulate_trade` (lines 117-174): enter at
the close of the first candle after the alert, find the exit candle and
reason, record the exit price by `exit_price_rule`, and compute the
percentage PnL. -/
def simulate_trade (alert : AlertRow) (candles : List App.Candle) :
    Option Trade :=
  match find_entry_candle alert.ts candles with
  | none => none
  | some entry_candle =>
    let entry_time := entry_candle.ts
    let entry_price := entry_candle.close
    match find_exit_candle entry_time entry_price alert.take_profit_pct
        alert.max_holding_days candles with
    | (none, _) => none
    | (some exit_candle, why) =>
      let take_profit_price := entry_price * (1 + alert.take_profit_pct / 100)
      let exit_price := exit_price_rule why take_profit_price exit_candle
      some
        { entry_time := entry_time
          entry_price := entry_price
          exit_time := exit_candle.ts
          exit_price := exit_price
          exit_reason := why
          pnl := (exit_price - entry_price) / entry_price * 100 }

end BacktestEngine

namespace ImprovedAnomaly

theorem update_highest_eq (p : Position) (c : ℚ) :
    (update_trailing_stop p c).highest_price = max p.highest_price c := by
  unfold update_trailing_stop
  split
  · simp only []
    exact (max_eq_right (le_of_lt (by assumption))).symm
  · exact (max_eq_left (le_of_not_lt (by assumption))).symm

theorem update_entry_eq (p : Position) (c : ℚ) :
    (update_trailing_stop p c).entry_price = p.entry_price := by
  unfold update_trailing_stop; split <;> rfl

theorem update_preserves_inv (p : Position) (c : ℚ) (h : Inv p) :
    Inv (update_trailing_stop p c) ∧
      p.trailing_stop_price ≤ (update_trailing_stop p c).trailing_stop_price := by
  obtain ⟨h0, h1, he, ht⟩ := h
  unfold update_trailing_stop
  split
  · rename_i hlt
    have hpct : (0 : ℚ) ≤ 1 - p.trailing_stop_pct := by linarith
    constructor
    · exact ⟨h0, h1, le_trans he (le_of_lt hlt), le_refl _⟩
    · calc p.trailing_stop_price ≤ p.highest_price * (1 - p.trailing_stop_pct) := ht
        _ ≤ c * (1 - p.trailing_stop_pct) :=
          mul_le_mul_of_nonneg_right (le_of_lt hlt) hpct
  · exact ⟨⟨h0, h1, he, ht⟩, le_refl _⟩

theorem tick_fst_eq (p : Position) (c : ℚ) :
    (onPriceTick p c).1 = update_trailing_stop p c := by
  unfold onPriceTick
  by_cases h1 : should_stop_loss (update_trailing_stop p c) c <;>
    by_cases h2 : should_trailing_stop (update_trailing_stop p c) c <;>
      simp [h1, h2]

theorem tick_preserves_inv (p : Position) (c : ℚ) (h : Inv p) :
    Inv (onPriceTick p c).1 ∧
      p.trailing_stop_price ≤ ((onPriceTick p c).1).trailing_stop_price := by
  rw [tick_fst_eq]
  exact update_preserves_inv p c h

theorem trajectory_chain (p : Position) (prices : List ℚ) (h : Inv p) :
    (trajectory p prices).Chain'
      (fun a b => a.trailing_stop_price ≤ b.trailing_stop_price) ∧
      ∀ q ∈ trajectory p prices, Inv q := by
  induction prices generalizing p with
  | nil =>
    refine ⟨by simp [trajectory], ?_⟩
    intro q hq
    simp [trajectory] at hq
    rwa [hq]
  | cons c rest ih =>
    have step := tick_preserves_inv p c h
    have tail := ih (onPriceTick p c).1 step.1
    constructor
    · rw [trajectory, List.scanl_cons]
      refine List.chain'_cons'.2 ⟨?_, tail.1⟩
      intro b hb
      have hhead : b = (onPriceTick p c).1 := by
        have : (trajectory (onPriceTick p c).1 rest).head? = some (onPriceTick p c).1 := by
          cases rest <;> simp [trajectory, List.scanl]
        rw [trajectory] at this
        simp only [List.append_eq, List.nil_append] at hb
        rw [this] at hb
        exact (Option.some_inj.1 hb).symm
      rw [hhead]
      exact step.2
    · intro q hq
      rw [trajectory, List.scanl_cons] at hq
      rcases List.mem_cons.1 hq with hq | hq
      · rwa [hq]
      · exact tail.2 q hq

theorem runTicks_highest (p : Position) (prices : List ℚ) :
    (runTicks p prices).highest_price = prices.foldl max p.highest_price := by
  induction prices generalizing p with
  | nil => rfl
  | cons c rest ih =>
    rw [runTicks, List.foldl_cons, List.foldl_cons, ← runTicks, ih,
      tick_fst_eq, update_highest_eq]

theorem scenario_stop_loss_wins :
    should_stop_loss scenarioPosition 90 = true ∧
      should_trailing_stop scenarioPosition 90 = true ∧
      (onPriceTick scenarioPosition 90).2 = some ExitReason.STOP_LOSS := by
  have hno : ¬ scenarioPosition.highest_price < (90 : ℚ) := by
    norm_num [scenarioPosition]
  have hupd : update_trailing_stop scenarioPosition 90 = scenarioPosition := by
    unfold update_trailing_stop
    rw [if_neg hno]
  have hsl : should_stop_loss scenarioPosition 90 = true := by
    unfold should_stop_loss scenarioPosition
    norm_num
  have hts : should_trailing_stop scenarioPosition 90 = true := by
    unfold should_trailing_stop scenarioPosition
    norm_num
  refine ⟨hsl, hts, ?_⟩
  unfold onPriceTick
  rw [hupd, if_pos hsl]

end ImprovedAnomaly

namespace MeanReversion

theorem exit_reason_initial_stop (ind : MRIndicators) (pos : MRPosition)
    (days_held : ℤ)
    (h : ind.current_price ≤ pos.entry_price - (3 / 2 : ℚ) * pos.atr_at_entry) :
    (check_exit_conditions ind pos days_held).2 = some (.INITIAL_STOP, 1) := by
  unfold check_exit_conditions
  rw [if_pos h]

theorem exit_reason_trailing (ind : MRIndicators) (pos : MRPosition)
    (days_held : ℤ)
    (h1 : ¬ ind.current_price ≤ pos.entry_price - (3 / 2 : ℚ) * pos.atr_at_entry)
    (h2 : ind.current_price ≤ pos.highest_price - (5 / 2 : ℚ) * pos.atr_at_entry) :
    (check_exit_conditions ind pos days_held).2 = some (.TRAILING_STOP, 1) := by
  unfold check_exit_conditions
  rw [if_neg h1]
  by_cases hup : pos.highest_price < ind.current_price <;>
    simp only [hup, if_true, if_false, if_pos] <;>
    · split
      · rfl
      · rename_i hc
        exact absurd h2 hc

theorem exit_reason_tp1 (ind : MRIndicators) (pos : MRPosition)
    (days_held : ℤ)
    (h1 : ¬ ind.current_price ≤ pos.entry_price - (3 / 2 : ℚ) * pos.atr_at_entry)
    (h2 : ¬ ind.current_price ≤ pos.highest_price - (5 / 2 : ℚ) * pos.atr_at_entry)
    (h3 : ind.ma_20 ≤ ind.current_price) (h4 : pos.tp1_hit = false) :
    (check_exit_conditions ind pos days_held).2 = some (.TP1_20DMA, 1 / 2) := by
  unfold check_exit_conditions
  rw [if_neg h1]
  by_cases hup : pos.highest_price < ind.current_price <;>
    simp only [hup, if_true, if_false] <;>
    · rw [if_neg h2, if_pos ⟨h3, h4⟩]

theorem exit_reason_tp2 (ind : MRIndicators) (pos : MRPosition)
    (days_held : ℤ)
    (h1 : ¬ ind.current_price ≤ pos.entry_price - (3 / 2 : ℚ) * pos.atr_at_entry)
    (h2 : ¬ ind.current_price ≤ pos.highest_price - (5 / 2 : ℚ) * pos.atr_at_entry)
    (h3 : ind.median_20 + ind.median_20 * (2 / 100 : ℚ) ≤ ind.current_price)
    (h4 : pos.tp1_hit = true) :
    (check_exit_conditions ind pos days_held).2 = some (.TP2_MEDIAN_1SIGMA, 1) := by
  unfold check_exit_conditions
  rw [if_neg h1]
  by_cases hup : pos.highest_price < ind.current_price <;>
    simp only [hup, if_true, if_false] <;>
    · rw [if_neg h2, if_neg (by simp [h4]), if_pos ⟨h3, h4⟩]

theorem exit_reason_time_stop (ind : MRIndicators) (pos : MRPosition)
    (days_held : ℤ)
    (h1 : ¬ ind.current_price ≤ pos.entry_price - (3 / 2 : ℚ) * pos.atr_at_entry)
    (h2 : ¬ ind.current_price ≤ pos.highest_price - (5 / 2 : ℚ) * pos.atr_at_entry)
    (h3 : ¬ (ind.ma_20 ≤ ind.current_price ∧ pos.tp1_hit = false))
    (h4 : ¬ (ind.median_20 + ind.median_20 * (2 / 100 : ℚ) ≤ ind.current_price ∧
        pos.tp1_hit = true))
    (h5 : (3 : ℤ) ≤ days_held) :
    (check_exit_conditions ind pos days_held).2 = some (.TIME_STOP_3DAYS, 1) := by
  unfold check_exit_conditions
  rw [if_neg h1]
  by_cases hup : pos.highest_price < ind.current_price <;>
    simp only [hup, if_true, if_false] <;>
    · rw [if_neg h2, if_neg h3, if_neg h4, if_pos h5]

end MeanReversion

/-- C1: exit conditions are tested in strict precedence order — stop-loss,
trailing stop, scaled profit target 1, profit target 2, time stop — with the
first matching rule winning, so at most one exit decision (an `Option`) is
produced per tick; and in the literal scenario entry 100, stop 5%, trailing
5%, highest 110, current price 90, where both stop-loss and trailing-stop
conditions hold, the decision reason is STOP_LOSS, not TRAILING_STOP. -/
theorem c1_exit_precedence_first_match_wins :
    (∀ (ind : MeanReversion.MRIndicators) (pos : MeanReversion.MRPosition)
        (days_held : ℤ),
      (ind.current_price ≤ pos.entry_price - (3 / 2 : ℚ) * pos.atr_at_entry →
        (MeanReversion.check_exit_conditions ind pos days_held).2 =
          some (.INITIAL_STOP, 1)) ∧
      (¬ ind.current_price ≤ pos.entry_price - (3 / 2 : ℚ) * pos.atr_at_entry →
        ind.current_price ≤ pos.highest_price - (5 / 2 : ℚ) * pos.atr_at_entry →
        (MeanReversion.check_exit_conditions ind pos days_held).2 =
          some (.TRAILING_STOP, 1)) ∧
      (¬ ind.current_price ≤ pos.entry_price - (3 / 2 : ℚ) * pos.atr_at_entry →
        ¬ ind.current_price ≤ pos.highest_price - (5 / 2 : ℚ) * pos.atr_at_entry →
        ind.ma_20 ≤ ind.current_price → pos.tp1_hit = false →
        (MeanReversion.check_exit_conditions ind pos days_held).2 =
          some (.TP1_20DMA, 1 / 2)) ∧
      (¬ ind.current_price ≤ pos.entry_price - (3 / 2 : ℚ) * pos.atr_at_entry →
        ¬ ind.current_price ≤ pos.highest_price - (5 / 2 : ℚ) * pos.atr_at_entry →
        ind.median_20 + ind.median_20 * (2 / 100 : ℚ) ≤ ind.current_price →
        pos.tp1_hit = true →
        (MeanReversion.check_exit_conditions ind pos days_held).2 =
          some (.TP2_MEDIAN_1SIGMA, 1)) ∧
      (¬ ind.current_price ≤ pos.entry_price - (3 / 2 : ℚ) * pos.atr_at_entry →
        ¬ ind.current_price ≤ pos.highest_price - (5 / 2 : ℚ) * pos.atr_at_entry →
        ¬ (ind.ma_20 ≤ ind.current_price ∧ pos.tp1_hit = false) →
        ¬ (ind.median_20 + ind.median_20 * (2 / 100 : ℚ) ≤ ind.current_price ∧
            pos.tp1_hit = true) →
        (3 : ℤ) ≤ days_held →
        (MeanReversion.check_exit_conditions ind pos days_held).2 =
          some (.TIME_STOP_3DAYS, 1))) ∧
    (ImprovedAnomaly.should_stop_loss ImprovedAnomaly.scenarioPosition 90 = true ∧
      ImprovedAnomaly.should_trailing_stop ImprovedAnomaly.scenarioPosition 90 = true ∧
      (ImprovedAnomaly.onPriceTick ImprovedAnomaly.scenarioPosition 90).2 =
        some ImprovedAnomaly.ExitReason.STOP_LOSS) := by
  refine ⟨fun ind pos days_held => ⟨?_, ?_, ?_, ?_, ?_⟩,
    ImprovedAnomaly.scenario_stop_loss_wins.1,
    ImprovedAnomaly.scenario_stop_loss_wins.2.1,
    ImprovedAnomaly.scenario_stop_loss_wins.2.2⟩
  · exact MeanReversion.exit_reason_initial_stop ind pos days_held
  · exact MeanReversion.exit_reason_trailing ind pos days_held
  · exact MeanReversion.exit_reason_tp1 ind pos days_held
  · exact MeanReversion.exit_reason_tp2 ind pos days_held
  · exact MeanReversion.exit_reason_time_stop ind pos days_held

/-- Witness for C1: the precedence theorem applied at a concrete tick where
the initial stop fires (entry 100, ATR 2, current price 90). -/
theorem c1_exit_precedence_first_match_wins_witness :
    (90 : ℚ) ≤ 100 - (3 / 2 : ℚ) * 2 ∧
      (MeanReversion.check_exit_conditions
        { current_price := 90, ma_20 := 0, median_20 := 0 }
        { entry_price := 100, atr_at_entry := 2, highest_price := 110,
          tp1_hit := false } 0).2 = some (.INITIAL_STOP, 1) :=
  ⟨by norm_num,
    (c1_exit_precedence_first_match_wins.1
      { current_price := 90, ma_20 := 0, median_20 := 0 }
      { entry_price := 100, atr_at_entry := 2, highest_price := 110,
        tp1_hit := false } 0).1 (by norm_num)⟩

/-- C2: on every tick the trailing stop is ratcheted before the exit tests
(the carried state is exactly `update_trailing_stop`, even on no-exit ticks);
over any tick sequence the running high equals the maximum price seen (so it
never drops below the entry price), and the trailing stop price is
monotonically non-decreasing along the position's trajectory. -/
theorem c2_trailing_stop_ratchet_monotone (p : ImprovedAnomaly.Position)
    (prices : List ℚ) (h : ImprovedAnomaly.Inv p) :
    (∀ (q : ImprovedAnomaly.Position) (cp : ℚ),
      (ImprovedAnomaly.onPriceTick q cp).1 =
        ImprovedAnomaly.update_trailing_stop q cp) ∧
    (ImprovedAnomaly.runTicks p prices).highest_price =
      prices.foldl max p.highest_price ∧
    (∀ q ∈ ImprovedAnomaly.trajectory p prices,
      q.entry_price ≤ q.highest_price) ∧
    (ImprovedAnomaly.trajectory p prices).Chain'
      (fun a b => a.trailing_stop_price ≤ b.trailing_stop_price) := by
  refine ⟨ImprovedAnomaly.tick_fst_eq, ImprovedAnomaly.runTicks_highest p prices,
    ?_, (ImprovedAnomaly.trajectory_chain p prices h).1⟩
  intro q hq
  exact ((ImprovedAnomaly.trajectory_chain p prices h).2 q hq).2.2.1

/-- Witness for C2: the ratchet/monotonicity theorem applied to a freshly
created position at entry 100 over the tick sequence [110, 90]. -/
theorem c2_trailing_stop_ratchet_monotone_witness :
    ImprovedAnomaly.Inv (ImprovedAnomaly.Position.make 1 100) ∧
      (ImprovedAnomaly.trajectory (ImprovedAnomaly.Position.make 1 100)
          [110, 90]).Chain'
        (fun a b => a.trailing_stop_price ≤ b.trailing_stop_price) :=
  ⟨by norm_num [ImprovedAnomaly.Inv, ImprovedAnomaly.Position.make],
    (c2_trailing_stop_ratchet_monotone (ImprovedAnomaly.Position.make 1 100)
      [110, 90]
      (by norm_num [ImprovedAnomaly.Inv, ImprovedAnomaly.Position.make])).2.2.2⟩

namespace Indicators

theorem gainOf_nonneg (d : ℚ) : 0 ≤ gainOf d := by
  unfold gainOf
  split
  · linarith
  · exact le_refl 0

theorem lossOf_nonneg (d : ℚ) : 0 ≤ lossOf d := by
  unfold lossOf
  split
  · linarith
  · exact le_refl 0

theorem rsiPoint_avg_loss_zero (avg_gain : ℚ) : rsiPoint avg_gain 0 = 100 := by
  simp [rsiPoint]

theorem rsiPoint_bounds (avg_gain avg_loss : ℚ) (hg : 0 ≤ avg_gain)
    (hl : 0 ≤ avg_loss) : 0 ≤ rsiPoint avg_gain avg_loss ∧
      rsiPoint avg_gain avg_loss ≤ 100 := by
  unfold rsiPoint
  split
  · norm_num
  · rename_i hne
    have hl' : 0 < avg_loss := lt_of_le_of_ne hl (Ne.symm hne)
    have hrs : 0 ≤ avg_gain / avg_loss := div_nonneg hg (le_of_lt hl')
    have h1 : (1 : ℚ) ≤ 1 + avg_gain / avg_loss := by linarith
    have h2 : (0 : ℚ) < 1 + avg_gain / avg_loss := by linarith
    have h3 : 100 / (1 + avg_gain / avg_loss) ≤ 100 :=
      div_le_self (by norm_num) h1
    have h4 : 0 < 100 / (1 + avg_gain / avg_loss) := div_pos (by norm_num) h2
    constructor <;> linarith

theorem stepAvgs_nonneg (period : ℕ) (hP : 1 ≤ period) (d : ℚ) (p : ℚ × ℚ)
    (h1 : 0 ≤ p.1) (h2 : 0 ≤ p.2) :
    0 ≤ (stepAvgs period d p).1 ∧ 0 ≤ (stepAvgs period d p).2 := by
  have hc : (0 : ℚ) ≤ (period : ℚ) := Nat.cast_nonneg period
  have hc1 : (1 : ℚ) ≤ (period : ℚ) := by exact_mod_cast hP
  have hc2 : (0 : ℚ) ≤ (period : ℚ) - 1 := by linarith
  constructor
  · exact div_nonneg (add_nonneg (mul_nonneg h1 hc2) (gainOf_nonneg d)) hc
  · exact div_nonneg (add_nonneg (mul_nonneg h2 hc2) (lossOf_nonneg d)) hc

theorem wilderLoop_bounds (ds : List ℚ) (period : ℕ) (hP : 1 ≤ period) :
    ∀ avg_gain avg_loss : ℚ, 0 ≤ avg_gain → 0 ≤ avg_loss →
      ∀ v ∈ wilderLoop period avg_gain avg_loss ds, 0 ≤ v ∧ v ≤ 100 := by
  induction ds with
  | nil => intro ag al _ _ v hv; simp [wilderLoop] at hv
  | cons d rest ih =>
    intro ag al hag hal v hv
    have hstep := stepAvgs_nonneg period hP d (ag, al) hag hal
    rw [wilderLoop] at hv
    rcases List.mem_cons.1 hv with hv | hv
    · rw [hv]
      exact rsiPoint_bounds _ _ hstep.1 hstep.2
    · exact ih _ _ hstep.1 hstep.2 v hv

theorem sum_map_gainOf_nonneg (l : List ℚ) : 0 ≤ (l.map gainOf).sum := by
  apply List.sum_nonneg
  intro x hx
  obtain ⟨d, _, hd⟩ := List.mem_map.1 hx
  rw [← hd]
  exact gainOf_nonneg d

theorem sum_map_lossOf_nonneg (l : List ℚ) : 0 ≤ (l.map lossOf).sum := by
  apply List.sum_nonneg
  intro x hx
  obtain ⟨d, _, hd⟩ := List.mem_map.1 hx
  rw [← hd]
  exact lossOf_nonneg d

theorem compute_rsi_wilder_bounds (period : ℕ) (closes : List ℚ)
    (hP : 1 ≤ period) :
    ∀ o ∈ compute_rsi_wilder period closes, ∀ v, o = some v →
      0 ≤ v ∧ v ≤ 100 := by
  unfold compute_rsi_wilder
  split
  · intro o ho v hv
    rw [hv] at ho
    have := List.eq_of_mem_replicate ho
    exact absurd this (by simp)
  · intro o ho v hv
    subst hv
    have hc : (0 : ℚ) ≤ (period : ℚ) := Nat.cast_nonneg period
    have hg0 : 0 ≤ (((deltasOf closes).take period).map gainOf).sum / period :=
      div_nonneg (sum_map_gainOf_nonneg _) hc
    have hl0 : 0 ≤ (((deltasOf closes).take period).map lossOf).sum / period :=
      div_nonneg (sum_map_lossOf_nonneg _) hc
    simp only [List.mem_append, List.mem_cons] at ho
    rcases ho with ho | ho | ho
    · have := List.eq_of_mem_replicate ho
      exact absurd this (by simp)
    · have hv := Option.some_inj.1 ho
      rw [hv]
      exact rsiPoint_bounds _ _ hg0 hl0
    · obtain ⟨w, hw, hws⟩ := List.mem_map.1 ho
      have hv := Option.some_inj.1 hws
      rw [← hv]
      exact wilderLoop_bounds _ period hP _ _ hg0 hl0 w hw

end Indicators

namespace Indicators

theorem deltasOf_cons₂ (a b : ℚ) (t : List ℚ) :
    deltasOf (a :: b :: t) = (b - a) :: deltasOf (b :: t) := rfl

theorem length_deltasOf (closes : List ℚ) :
    (deltasOf closes).length = closes.length - 1 := by
  unfold deltasOf
  rw [List.length_zipWith, List.length_tail]
  exact min_eq_left (Nat.sub_le _ _)

theorem deltasOf_getD (closes : List ℚ) :
    ∀ j, j + 1 < closes.length → (deltasOf closes).getD j 0 = deltaAt closes j := by
  induction closes with
  | nil => intro j hj; simp at hj
  | cons a t ih =>
    intro j hj
    cases t with
    | nil =>
      simp only [List.length_cons, List.length_nil] at hj
      omega
    | cons b t' =>
      rw [deltasOf_cons₂]
      cases j with
      | zero => simp [deltaAt]
      | succ k =>
        have hk : k + 1 < (b :: t').length := by
          simp only [List.length_cons] at hj ⊢
          omega
        rw [List.getD_cons_succ, ih k hk]
        simp [deltaAt, List.getD_cons_succ]

theorem take_map_sum (f : ℚ → ℚ) :
    ∀ (n : ℕ) (l : List ℚ), n ≤ l.length →
      ((l.take n).map f).sum = ∑ t ∈ Finset.range n, f (l.getD t 0) := by
  intro n
  induction n with
  | zero => intro l _; simp
  | succ m ih =>
    intro l hl
    cases l with
    | nil => simp at hl
    | cons a t =>
      rw [List.take_succ_cons]
      simp only [List.map_cons, List.sum_cons]
      rw [ih t (by simpa using hl)]
      rw [Finset.sum_range_succ']
      simp only [List.getD_cons_succ, List.getD_cons_zero]
      ring

theorem wilderLoop_length (period : ℕ) :
    ∀ (ds : List ℚ) (avg_gain avg_loss : ℚ),
      (wilderLoop period avg_gain avg_loss ds).length = ds.length := by
  intro ds
  induction ds with
  | nil => intro ag al; rfl
  | cons d rest ih =>
    intro ag al
    simp only [wilderLoop, List.length_cons]
    rw [ih]

theorem wilderLoop_getD (period : ℕ) :
    ∀ (ds : List ℚ) (avg_gain avg_loss : ℚ) (k : ℕ), k < ds.length →
      (wilderLoop period avg_gain avg_loss ds).getD k 0 =
        rsiPoint (foldAvg period (avg_gain, avg_loss) (ds.take (k + 1))).1
          (foldAvg period (avg_gain, avg_loss) (ds.take (k + 1))).2 := by
  intro ds
  induction ds with
  | nil => intro ag al k hk; simp at hk
  | cons d rest ih =>
    intro ag al k hk
    simp only [wilderLoop]
    cases k with
    | zero =>
      simp [foldAvg]
    | succ k' =>
      rw [List.getD_cons_succ]
      rw [ih _ _ k' (by simpa using hk)]
      rw [List.take_succ_cons]
      simp [foldAvg]

theorem avgsFrom_eq_foldAvg (period : ℕ) (closes : List ℚ) :
    ∀ k, period + k + 1 ≤ closes.length →
      avgsFrom period closes k =
        foldAvg period (avgsFrom period closes 0)
          (((deltasOf closes).drop period).take k) := by
  intro k
  induction k with
  | zero => intro _; simp [foldAvg]
  | succ k' ih =>
    intro hk
    have hk' : period + k' + 1 ≤ closes.length := by omega
    have hds : (deltasOf closes).length = closes.length - 1 := length_deltasOf closes
    have hdropidx : k' < ((deltasOf closes).drop period).length := by
      rw [List.length_drop]
      omega
    have hget : ((deltasOf closes).drop period)[k']? =
        some ((deltasOf closes).getD (period + k') 0) := by
      rw [List.getElem?_drop]
      cases hx : (deltasOf closes)[period + k']? with
      | none =>
        have := List.getElem?_eq_none_iff.1 hx
        omega
      | some x =>
        have : (deltasOf closes).getD (period + k') 0 = x := by
          rw [List.getD_eq_getElem?_getD, hx]
          rfl
        rw [this]
    conv_lhs => rw [avgsFrom]
    rw [ih hk', List.take_succ, hget]
    simp only [Option.toList_some]
    conv_rhs => rw [foldAvg, List.foldl_append]
    simp only [List.foldl_cons, List.foldl_nil]
    conv_lhs => rw [foldAvg]
    rw [deltasOf_getD closes (period + k') (by omega)]

theorem getD_replicate_of_lt {α : Type} (a d : α) :
    ∀ (n i : ℕ), i < n → (List.replicate n a).getD i d = a := by
  intro n
  induction n with
  | zero => intro i hi; omega
  | succ m ih =>
    intro i hi
    cases i with
    | zero => rfl
    | succ j =>
      rw [List.replicate_succ, List.getD_cons_succ]
      exact ih j (by omega)

theorem getD_map_some {α : Type} (l : List α) (k : ℕ) (h : k < l.length) (d : α) :
    (l.map some).getD k none = some (l.getD k d) := by
  rw [List.getD_eq_getElem?_getD, List.getElem?_map, List.getD_eq_getElem?_getD]
  rw [List.getElem?_eq_getElem h]
  rfl

theorem compute_rsi_wilder_eq (period : ℕ) (closes : List ℚ)
    (h : ¬ closes.length < period + 1) :
    compute_rsi_wilder period closes =
      List.replicate period none ++
        (some (rsiPoint ((((deltasOf closes).take period).map gainOf).sum / period)
            ((((deltasOf closes).take period).map lossOf).sum / period)) ::
          (wilderLoop period
            ((((deltasOf closes).take period).map gainOf).sum / period)
            ((((deltasOf closes).take period).map lossOf).sum / period)
            ((deltasOf closes).drop period)).map some) := by
  unfold compute_rsi_wilder
  rw [if_neg h]

theorem init_avgs (period : ℕ) (closes : List ℚ)
    (hlen : period + 1 ≤ closes.length) :
    ((((deltasOf closes).take period).map gainOf).sum / (period : ℚ),
      (((deltasOf closes).take period).map lossOf).sum / (period : ℚ)) =
      avgsFrom period closes 0 := by
  have hds : (deltasOf closes).length = closes.length - 1 := length_deltasOf closes
  have htk : period ≤ (deltasOf closes).length := by omega
  rw [avgsFrom]
  rw [Prod.mk.injEq]
  constructor
  · rw [take_map_sum gainOf period (deltasOf closes) htk]
    congr 1
    apply Finset.sum_congr rfl
    intro t ht
    rw [deltasOf_getD closes t (by
      have := Finset.mem_range.1 ht
      omega)]
  · rw [take_map_sum lossOf period (deltasOf closes) htk]
    congr 1
    apply Finset.sum_congr rfl
    intro t ht
    rw [deltasOf_getD closes t (by
      have := Finset.mem_range.1 ht
      omega)]

theorem compute_rsi_wilder_length (period : ℕ) (closes : List ℚ)
    (hlen : period + 1 ≤ closes.length) :
    (compute_rsi_wilder period closes).length = closes.length := by
  rw [compute_rsi_wilder_eq period closes (by omega)]
  rw [List.length_append, List.length_replicate, List.length_cons,
    List.length_map, wilderLoop_length, List.length_drop, length_deltasOf]
  omega

theorem compute_rsi_wilder_getD_none (period : ℕ) (closes : List ℚ)
    (hlen : period + 1 ≤ closes.length) (i : ℕ) (hi : i < period) :
    (compute_rsi_wilder period closes).getD i none = none := by
  rw [compute_rsi_wilder_eq period closes (by omega)]
  rw [List.getD_append _ _ _ _ (by rw [List.length_replicate]; exact hi)]
  exact getD_replicate_of_lt none none period i hi

theorem compute_rsi_wilder_getD_main (period : ℕ) (closes : List ℚ)
    (hlen : period + 1 ≤ closes.length) (k : ℕ)
    (hk : period + k < closes.length) :
    (compute_rsi_wilder period closes).getD (period + k) none =
      some (rsiPoint (avgsFrom period closes k).1 (avgsFrom period closes k).2) := by
  have hds : (deltasOf closes).length = closes.length - 1 := length_deltasOf closes
  rw [compute_rsi_wilder_eq period closes (by omega)]
  rw [List.getD_append_right _ _ _ _ (by rw [List.length_replicate]; omega)]
  rw [List.length_replicate]
  have hsub : period + k - period = k := by omega
  rw [hsub]
  cases k with
  | zero =>
    rw [List.getD_cons_zero]
    rw [← init_avgs period closes hlen]
  | succ k' =>
    rw [List.getD_cons_succ]
    have hwl : k' < (wilderLoop period
        ((((deltasOf closes).take period).map gainOf).sum / period)
        ((((deltasOf closes).take period).map lossOf).sum / period)
        ((deltasOf closes).drop period)).length := by
      rw [wilderLoop_length, List.length_drop]
      omega
    rw [getD_map_some _ k' hwl 0]
    rw [wilderLoop_getD period ((deltasOf closes).drop period) _ _ k'
      (by rw [List.length_drop]; omega)]
    rw [avgsFrom_eq_foldAvg period closes (k' + 1) (by omega)]
    rw [← init_avgs period closes hlen]

end Indicators

/-- C3: every value emitted by the Wilder oscillator lies in [0, 100]; when
the smoothed average loss is exactly 0 the value is exactly 100 (the
divide-by-zero guard branch); and for closes 100..114 with period 14 the
value emitted at index 14 is exactly 100. -/
theorem c3_oscillator_bounded_and_all_gains_100 :
    (∀ (period : ℕ) (closes : List ℚ), 1 ≤ period →
      ∀ o ∈ Indicators.compute_rsi_wilder period closes, ∀ v, o = some v →
        0 ≤ v ∧ v ≤ 100) ∧
    (∀ avg_gain : ℚ, Indicators.rsiPoint avg_gain 0 = 100) ∧
    (Indicators.compute_rsi_wilder 14 Indicators.scenarioCloses).getD 14 none =
      some 100 := by
  refine ⟨fun period closes hP => Indicators.compute_rsi_wilder_bounds period closes hP,
    Indicators.rsiPoint_avg_loss_zero, ?_⟩
  norm_num [Indicators.compute_rsi_wilder, Indicators.scenarioCloses,
    Indicators.deltasOf, Indicators.gainOf, Indicators.lossOf,
    Indicators.rsiPoint, List.zipWith, Indicators.wilderLoop]

/-- Witness for C3: the bounds theorem applied to the value 100 emitted at
index 14 of the 100..114 scenario. -/
theorem c3_oscillator_bounded_and_all_gains_100_witness :
    (0 : ℚ) ≤ 100 ∧ (100 : ℚ) ≤ 100 :=
  c3_oscillator_bounded_and_all_gains_100.1 14 Indicators.scenarioCloses
    (by norm_num) (some 100)
    (by
      norm_num [Indicators.compute_rsi_wilder, Indicators.scenarioCloses,
        Indicators.deltasOf, Indicators.gainOf, Indicators.lossOf,
        Indicators.rsiPoint, List.zipWith, Indicators.wilderLoop])
    100 rfl

/-- C4: with at least `period + 1` closes the oscillator series has one
output slot per close; every index below `period` carries no value; the
value at index `period` is the RSI of the simple averages of the first
`period` per-step gains and losses (the deltas at close indices 1..period);
every index `period + k` carries the RSI of the smoothed pair `avgsFrom k`;
and that pair advances by the Wilder recurrence
`avg = (avg * (period - 1) + current) / period`. -/
theorem c4_wilder_initialization_and_recurrence (period : ℕ) (closes : List ℚ)
    (hlen : period + 1 ≤ closes.length) :
    (Indicators.compute_rsi_wilder period closes).length = closes.length ∧
    (∀ i < period,
      (Indicators.compute_rsi_wilder period closes).getD i none = none) ∧
    ((Indicators.compute_rsi_wilder period closes).getD period none =
      some (Indicators.rsiPoint
        ((∑ t ∈ Finset.range period,
          Indicators.gainOf (Indicators.deltaAt closes t)) / (period : ℚ))
        ((∑ t ∈ Finset.range period,
          Indicators.lossOf (Indicators.deltaAt closes t)) / (period : ℚ)))) ∧
    (∀ k, period + k < closes.length →
      (Indicators.compute_rsi_wilder period closes).getD (period + k) none =
        some (Indicators.rsiPoint (Indicators.avgsFrom period closes k).1
          (Indicators.avgsFrom period closes k).2)) ∧
    (∀ k, Indicators.avgsFrom period closes (k + 1) =
      Indicators.stepAvgs period (Indicators.deltaAt closes (period + k))
        (Indicators.avgsFrom period closes k)) := by
  refine ⟨Indicators.compute_rsi_wilder_length period closes hlen,
    fun i hi => Indicators.compute_rsi_wilder_getD_none period closes hlen i hi,
    ?_,
    fun k hk => Indicators.compute_rsi_wilder_getD_main period closes hlen k hk,
    fun k => rfl⟩
  have h0 := Indicators.compute_rsi_wilder_getD_main period closes hlen 0
    (by omega)
  rw [Nat.add_zero] at h0
  rw [h0, Indicators.avgsFrom]

/-- Witness for C4: the characterization theorem applied to the 100..114
scenario with period 14 — index 0 carries no value. -/
theorem c4_wilder_initialization_and_recurrence_witness :
    14 + 1 ≤ Indicators.scenarioCloses.length ∧
      (Indicators.compute_rsi_wilder 14 Indicators.scenarioCloses).getD 0 none =
        none :=
  ⟨by norm_num [Indicators.scenarioCloses],
    (c4_wilder_initialization_and_recurrence 14 Indicators.scenarioCloses
      (by norm_num [Indicators.scenarioCloses])).2.1 0 (by norm_num)⟩

/-- C8: with fewer than `period + 1` closes the oscillator computation
returns the all-`none` series of the same length (no value is emitted and no
smoothed state is computed; the embedding is a total function, mirroring the
guarded early return rather than an exception), and the symbol-level flow
reports 0 stored values. -/
theorem c8_insufficient_data_recoverable (period : ℕ) (closes : List ℚ)
    (candles : List App.Candle) (h1 : closes.length < period + 1)
    (h2 : candles.length < period + 1) :
    Indicators.compute_rsi_wilder period closes =
      List.replicate closes.length none ∧
    (∀ o ∈ Indicators.compute_rsi_wilder period closes, o = none) ∧
    Indicators.compute_rsi_for_symbol period candles = 0 := by
  have he : Indicators.compute_rsi_wilder period closes =
      List.replicate closes.length none := by
    unfold Indicators.compute_rsi_wilder
    rw [if_pos h1]
  refine ⟨he, fun o ho => ?_, ?_⟩
  · rw [he] at ho
    exact List.eq_of_mem_replicate ho
  · unfold Indicators.compute_rsi_for_symbol
    rw [if_pos h2]

/-- Witness for C8: five closes with period 14 produce the all-`none` series
and a stored count of 0. -/
theorem c8_insufficient_data_recoverable_witness :
    ([100, 101, 102, 103, 104] : List ℚ).length < 14 + 1 ∧
      ([] : List App.Candle).length < 14 + 1 ∧
      Indicators.compute_rsi_for_symbol 14 [] = 0 :=
  ⟨by norm_num, by norm_num,
    (c8_insufficient_data_recoverable 14 [100, 101, 102, 103, 104] []
      (by norm_num) (by norm_num)).2.2⟩

namespace CompareStrategies

theorem condStep_fst (c : Prop) [Decidable c] (t : Tag) (s : ℚ)
    (acc : List Tag × ℚ) :
    (condStep c t s acc).1 = acc.1 ++ (if c then [t] else []) := by
  unfold condStep
  split <;> simp

theorem condStep_snd (c : Prop) [Decidable c] (t : Tag) (s : ℚ)
    (acc : List Tag × ℚ) :
    (condStep c t s acc).2 = acc.2 + (if c then s else 0) := by
  unfold condStep
  split <;> simp

theorem severity_eq (z pc gap rsi : ℚ) :
    (tagsAndSeverity z pc gap rsi).2 =
      zBuyContrib z + dropContrib pc + gapDownContrib gap + rsiLowContrib rsi +
        zSellContrib z + riseContrib pc + gapUpContrib gap + rsiHighContrib rsi := by
  unfold tagsAndSeverity
  simp only [condStep_snd]
  unfold zBuyContrib dropContrib gapDownContrib rsiLowContrib zSellContrib
    riseContrib gapUpContrib rsiHighContrib
  ring

theorem tags_eq (z pc gap rsi : ℚ) :
    (tagsAndSeverity z pc gap rsi).1 =
      (if z < -2 then [Tag.oversold] else []) ++
        (if pc < -3 then [Tag.extreme_drop] else []) ++
        (if gap < -2 then [Tag.gap_down] else []) ++
        (if rsi < 30 then [Tag.rsi_oversold] else []) ++
        (if 2 < z then [Tag.overbought] else []) ++
        (if 3 < pc then [Tag.extreme_rise] else []) ++
        (if 2 < gap then [Tag.gap_up] else []) ++
        (if 70 < rsi then [Tag.rsi_overbought] else []) := by
  unfold tagsAndSeverity
  simp only [condStep_fst, List.nil_append, List.append_assoc]

theorem mem_ite_singleton (c : Prop) [Decidable c] (a x : Tag) :
    a ∈ (if c then [x] else ([] : List Tag)) ↔ c ∧ a = x := by
  split_ifs with h <;> simp [h]

theorem ite_singleton_eq_nil (c : Prop) [Decidable c] (x : Tag) :
    ((if c then [x] else ([] : List Tag)) = []) ↔ ¬ c := by
  split_ifs with h <;> simp [h]

theorem oversold_mem_iff (z pc gap rsi : ℚ) :
    Tag.oversold ∈ (tagsAndSeverity z pc gap rsi).1 ↔ z < -2 := by
  rw [tags_eq]
  simp [List.mem_append, mem_ite_singleton]

theorem extreme_drop_mem_iff (z pc gap rsi : ℚ) :
    Tag.extreme_drop ∈ (tagsAndSeverity z pc gap rsi).1 ↔ pc < -3 := by
  rw [tags_eq]
  simp [List.mem_append, mem_ite_singleton]

theorem gap_down_mem_iff (z pc gap rsi : ℚ) :
    Tag.gap_down ∈ (tagsAndSeverity z pc gap rsi).1 ↔ gap < -2 := by
  rw [tags_eq]
  simp [List.mem_append, mem_ite_singleton]

theorem rsi_oversold_mem_iff (z pc gap rsi : ℚ) :
    Tag.rsi_oversold ∈ (tagsAndSeverity z pc gap rsi).1 ↔ rsi < 30 := by
  rw [tags_eq]
  simp [List.mem_append, mem_ite_singleton]

theorem overbought_mem_iff (z pc gap rsi : ℚ) :
    Tag.overbought ∈ (tagsAndSeverity z pc gap rsi).1 ↔ 2 < z := by
  rw [tags_eq]
  simp [List.mem_append, mem_ite_singleton]

theorem extreme_rise_mem_iff (z pc gap rsi : ℚ) :
    Tag.extreme_rise ∈ (tagsAndSeverity z pc gap rsi).1 ↔ 3 < pc := by
  rw [tags_eq]
  simp [List.mem_append, mem_ite_singleton]

theorem gap_up_mem_iff (z pc gap rsi : ℚ) :
    Tag.gap_up ∈ (tagsAndSeverity z pc gap rsi).1 ↔ 2 < gap := by
  rw [tags_eq]
  simp [List.mem_append, mem_ite_singleton]

theorem rsi_overbought_mem_iff (z pc gap rsi : ℚ) :
    Tag.rsi_overbought ∈ (tagsAndSeverity z pc gap rsi).1 ↔ 70 < rsi := by
  rw [tags_eq]
  simp [List.mem_append, mem_ite_singleton]

theorem buy_tag_iff (z pc gap rsi : ℚ) :
    (∃ s ∈ buy_signals, s ∈ (tagsAndSeverity z pc gap rsi).1) ↔
      Tag.oversold ∈ (tagsAndSeverity z pc gap rsi).1 ∨
        Tag.extreme_drop ∈ (tagsAndSeverity z pc gap rsi).1 ∨
        Tag.gap_down ∈ (tagsAndSeverity z pc gap rsi).1 ∨
        Tag.rsi_oversold ∈ (tagsAndSeverity z pc gap rsi).1 := by
  simp [buy_signals]

theorem sell_tag_iff (z pc gap rsi : ℚ) :
    (∃ s ∈ sell_signals, s ∈ (tagsAndSeverity z pc gap rsi).1) ↔
      Tag.overbought ∈ (tagsAndSeverity z pc gap rsi).1 ∨
        Tag.extreme_rise ∈ (tagsAndSeverity z pc gap rsi).1 ∨
        Tag.gap_up ∈ (tagsAndSeverity z pc gap rsi).1 ∨
        Tag.rsi_overbought ∈ (tagsAndSeverity z pc gap rsi).1 := by
  simp [sell_signals]

theorem signal_type_none_iff (l : List Tag) :
    signal_type l = none ↔
      ¬ (∃ s ∈ buy_signals, s ∈ l) ∧ ¬ (∃ s ∈ sell_signals, s ∈ l) := by
  unfold signal_type
  by_cases hb : ∃ s ∈ buy_signals, s ∈ l <;>
    by_cases hs : ∃ s ∈ sell_signals, s ∈ l <;>
      simp [hb, hs]

theorem signal_type_buy_iff (l : List Tag) :
    signal_type l = some SigType.BUY ↔
      (∃ s ∈ buy_signals, s ∈ l) ∧ ¬ (∃ s ∈ sell_signals, s ∈ l) := by
  unfold signal_type
  by_cases hb : ∃ s ∈ buy_signals, s ∈ l <;>
    by_cases hs : ∃ s ∈ sell_signals, s ∈ l <;>
      simp [hb, hs]

theorem signal_type_sell_iff (l : List Tag) :
    signal_type l = some SigType.SELL ↔
      ¬ (∃ s ∈ buy_signals, s ∈ l) ∧ (∃ s ∈ sell_signals, s ∈ l) := by
  unfold signal_type
  by_cases hb : ∃ s ∈ buy_signals, s ∈ l <;>
    by_cases hs : ∃ s ∈ sell_signals, s ∈ l <;>
      simp [hb, hs]

theorem signal_type_mixed_iff (l : List Tag) :
    signal_type l = some SigType.MIXED ↔
      (∃ s ∈ buy_signals, s ∈ l) ∧ (∃ s ∈ sell_signals, s ∈ l) := by
  unfold signal_type
  by_cases hb : ∃ s ∈ buy_signals, s ∈ l <;>
    by_cases hs : ∃ s ∈ sell_signals, s ∈ l <;>
      simp [hb, hs]

theorem tags_eq_nil_iff (z pc gap rsi : ℚ) :
    (tagsAndSeverity z pc gap rsi).1 = [] ↔
      ¬ z < -2 ∧ ¬ pc < -3 ∧ ¬ gap < -2 ∧ ¬ rsi < 30 ∧
        ¬ 2 < z ∧ ¬ 3 < pc ∧ ¬ 2 < gap ∧ ¬ 70 < rsi := by
  rw [tags_eq]
  simp only [List.append_eq_nil, ite_singleton_eq_nil]
  tauto

theorem contribs_nonneg (z pc gap rsi : ℚ) :
    0 ≤ zBuyContrib z ∧ 0 ≤ dropContrib pc ∧ 0 ≤ gapDownContrib gap ∧
      0 ≤ rsiLowContrib rsi ∧ 0 ≤ zSellContrib z ∧ 0 ≤ riseContrib pc ∧
      0 ≤ gapUpContrib gap ∧ 0 ≤ rsiHighContrib rsi := by
  unfold zBuyContrib dropContrib gapDownContrib rsiLowContrib zSellContrib
    riseContrib gapUpContrib rsiHighContrib
  refine ⟨?_, ?_, ?_, ?_, ?_, ?_, ?_, ?_⟩ <;>
    · split_ifs with h
      · first
          | positivity
          | linarith
      · exact le_refl 0

theorem severity_pos_of_tags (z pc gap rsi : ℚ)
    (h : (tagsAndSeverity z pc gap rsi).1 ≠ []) :
    0 < (tagsAndSeverity z pc gap rsi).2 := by
  rw [severity_eq]
  obtain ⟨n1, n2, n3, n4, n5, n6, n7, n8⟩ := contribs_nonneg z pc gap rsi
  have hcond : ¬ (¬ z < -2 ∧ ¬ pc < -3 ∧ ¬ gap < -2 ∧ ¬ rsi < 30 ∧
      ¬ 2 < z ∧ ¬ 3 < pc ∧ ¬ 2 < gap ∧ ¬ 70 < rsi) :=
    fun hc => h ((tags_eq_nil_iff z pc gap rsi).2 hc)
  by_contra hle
  push_neg at hle
  apply hcond
  have hz : ¬ z < -2 := by
    intro hc
    have h1 : 0 < zBuyContrib z := by
      unfold zBuyContrib
      rw [if_pos hc]
      exact abs_pos.2 (by linarith)
    linarith
  have hpc : ¬ pc < -3 := by
    intro hc
    have h1 : 0 < dropContrib pc := by
      unfold dropContrib
      rw [if_pos hc]
      have : 0 < |pc| := abs_pos.2 (by linarith)
      linarith
    linarith
  have hgap : ¬ gap < -2 := by
    intro hc
    have h1 : 0 < gapDownContrib gap := by
      unfold gapDownContrib
      rw [if_pos hc]
      have : 0 < |gap| := abs_pos.2 (by linarith)
      linarith
    linarith
  have hrsi : ¬ rsi < 30 := by
    intro hc
    have h1 : 0 < rsiLowContrib rsi := by
      unfold rsiLowContrib
      rw [if_pos hc]
      linarith
    linarith
  have hz' : ¬ 2 < z := by
    intro hc
    have h1 : 0 < zSellContrib z := by
      unfold zSellContrib
      rw [if_pos hc]
      exact abs_pos.2 (by linarith)
    linarith
  have hpc' : ¬ 3 < pc := by
    intro hc
    have h1 : 0 < riseContrib pc := by
      unfold riseContrib
      rw [if_pos hc]
      have : 0 < |pc| := abs_pos.2 (by linarith)
      linarith
    linarith
  have hgap' : ¬ 2 < gap := by
    intro hc
    have h1 : 0 < gapUpContrib gap := by
      unfold gapUpContrib
      rw [if_pos hc]
      have : 0 < |gap| := abs_pos.2 (by linarith)
      linarith
    linarith
  have hrsi' : ¬ 70 < rsi := by
    intro hc
    have h1 : 0 < rsiHighContrib rsi := by
      unfold rsiHighContrib
      rw [if_pos hc]
      linarith
    linarith
  exact ⟨hz, hpc, hgap, hrsi, hz', hpc', hgap', hrsi'⟩

theorem check_core_reject (z pc gap rsi min_severity : ℚ)
    (h : (tagsAndSeverity z pc gap rsi).2 < min_severity) :
    check_signals_core z pc gap rsi min_severity =
      { action := .HOLD,
        reason := .belowSeverity (tagsAndSeverity z pc gap rsi).2 min_severity } := by
  unfold check_signals_core
  rw [if_pos (Or.inr h)]

theorem check_core_mixed_is_buy (z pc gap rsi min_severity : ℚ)
    (h1 : (tagsAndSeverity z pc gap rsi).1 ≠ [])
    (h2 : min_severity ≤ (tagsAndSeverity z pc gap rsi).2)
    (h3 : signal_type (tagsAndSeverity z pc gap rsi).1 = some SigType.MIXED) :
    (check_signals_core z pc gap rsi min_severity).action = Action.BUY := by
  unfold check_signals_core
  rw [if_neg (by
    push_neg
    exact ⟨h1, h2⟩)]
  rw [if_pos (Or.inr h3)]

end CompareStrategies

/-- C5: the total severity of an evaluation equals the sum of the eight
independent condition contributions, and the signal direction is BUY exactly
when a buy-side tag is present with no sell-side tag, SELL when a sell-side
tag is present with no buy-side tag, MIXED when both sides are present, and
none when no tag fired; a MIXED signal above threshold is treated as
BUY-eligible by the decision kernel. -/
theorem c5_severity_sum_and_direction :
    (∀ z pc gap rsi : ℚ,
      (CompareStrategies.tagsAndSeverity z pc gap rsi).2 =
        CompareStrategies.zBuyContrib z + CompareStrategies.dropContrib pc +
          CompareStrategies.gapDownContrib gap +
          CompareStrategies.rsiLowContrib rsi +
          CompareStrategies.zSellContrib z + CompareStrategies.riseContrib pc +
          CompareStrategies.gapUpContrib gap +
          CompareStrategies.rsiHighContrib rsi) ∧
    (∀ z pc gap rsi : ℚ,
      (CompareStrategies.signal_type (CompareStrategies.tagsAndSeverity z pc gap rsi).1 =
          some CompareStrategies.SigType.BUY ↔
        (CompareStrategies.Tag.oversold ∈ (CompareStrategies.tagsAndSeverity z pc gap rsi).1 ∨
          CompareStrategies.Tag.extreme_drop ∈ (CompareStrategies.tagsAndSeverity z pc gap rsi).1 ∨
          CompareStrategies.Tag.gap_down ∈ (CompareStrategies.tagsAndSeverity z pc gap rsi).1 ∨
          CompareStrategies.Tag.rsi_oversold ∈ (CompareStrategies.tagsAndSeverity z pc gap rsi).1) ∧
        ¬ (CompareStrategies.Tag.overbought ∈ (CompareStrategies.tagsAndSeverity z pc gap rsi).1 ∨
          CompareStrategies.Tag.extreme_rise ∈ (CompareStrategies.tagsAndSeverity z pc gap rsi).1 ∨
          CompareStrategies.Tag.gap_up ∈ (CompareStrategies.tagsAndSeverity z pc gap rsi).1 ∨
          CompareStrategies.Tag.rsi_overbought ∈ (CompareStrategies.tagsAndSeverity z pc gap rsi).1)) ∧
      (CompareStrategies.signal_type (CompareStrategies.tagsAndSeverity z pc gap rsi).1 =
          some CompareStrategies.SigType.SELL ↔
        ¬ (CompareStrategies.Tag.oversold ∈ (CompareStrategies.tagsAndSeverity z pc gap rsi).1 ∨
          CompareStrategies.Tag.extreme_drop ∈ (CompareStrategies.tagsAndSeverity z pc gap rsi).1 ∨
          CompareStrategies.Tag.gap_down ∈ (CompareStrategies.tagsAndSeverity z pc gap rsi).1 ∨
          CompareStrategies.Tag.rsi_oversold ∈ (CompareStrategies.tagsAndSeverity z pc gap rsi).1) ∧
        (CompareStrategies.Tag.overbought ∈ (CompareStrategies.tagsAndSeverity z pc gap rsi).1 ∨
          CompareStrategies.Tag.extreme_rise ∈ (CompareStrategies.tagsAndSeverity z pc gap rsi).1 ∨
          CompareStrategies.Tag.gap_up ∈ (CompareStrategies.tagsAndSeverity z pc gap rsi).1 ∨
          CompareStrategies.Tag.rsi_overbought ∈ (CompareStrategies.tagsAndSeverity z pc gap rsi).1)) ∧
      (CompareStrategies.signal_type (CompareStrategies.tagsAndSeverity z pc gap rsi).1 =
          some CompareStrategies.SigType.MIXED ↔
        (CompareStrategies.Tag.oversold ∈ (CompareStrategies.tagsAndSeverity z pc gap rsi).1 ∨
          CompareStrategies.Tag.extreme_drop ∈ (CompareStrategies.tagsAndSeverity z pc gap rsi).1 ∨
          CompareStrategies.Tag.gap_down ∈ (CompareStrategies.tagsAndSeverity z pc gap rsi).1 ∨
          CompareStrategies.Tag.rsi_oversold ∈ (CompareStrategies.tagsAndSeverity z pc gap rsi).1) ∧
        (CompareStrategies.Tag.overbought ∈ (CompareStrategies.tagsAndSeverity z pc gap rsi).1 ∨
          CompareStrategies.Tag.extreme_rise ∈ (CompareStrategies.tagsAndSeverity z pc gap rsi).1 ∨
          CompareStrategies.Tag.gap_up ∈ (CompareStrategies.tagsAndSeverity z pc gap rsi).1 ∨
          CompareStrategies.Tag.rsi_overbought ∈ (CompareStrategies.tagsAndSeverity z pc gap rsi).1)) ∧
      (CompareStrategies.signal_type (CompareStrategies.tagsAndSeverity z pc gap rsi).1 =
          none ↔ (CompareStrategies.tagsAndSeverity z pc gap rsi).1 = [])) ∧
    (∀ z pc gap rsi min_severity : ℚ,
      (CompareStrategies.tagsAndSeverity z pc gap rsi).1 ≠ [] →
      min_severity ≤ (CompareStrategies.tagsAndSeverity z pc gap rsi).2 →
      CompareStrategies.signal_type (CompareStrategies.tagsAndSeverity z pc gap rsi).1 =
        some CompareStrategies.SigType.MIXED →
      (CompareStrategies.check_signals_core z pc gap rsi min_severity).action =
        CompareStrategies.Action.BUY) := by
  refine ⟨CompareStrategies.severity_eq, fun z pc gap rsi => ⟨?_, ?_, ?_, ?_⟩,
    CompareStrategies.check_core_mixed_is_buy⟩
  · rw [CompareStrategies.signal_type_buy_iff, CompareStrategies.buy_tag_iff,
      CompareStrategies.sell_tag_iff]
  · rw [CompareStrategies.signal_type_sell_iff, CompareStrategies.buy_tag_iff,
      CompareStrategies.sell_tag_iff]
  · rw [CompareStrategies.signal_type_mixed_iff, CompareStrategies.buy_tag_iff,
      CompareStrategies.sell_tag_iff]
  · rw [CompareStrategies.signal_type_none_iff, CompareStrategies.buy_tag_iff,
      CompareStrategies.sell_tag_iff, CompareStrategies.oversold_mem_iff,
      CompareStrategies.extreme_drop_mem_iff, CompareStrategies.gap_down_mem_iff,
      CompareStrategies.rsi_oversold_mem_iff, CompareStrategies.overbought_mem_iff,
      CompareStrategies.extreme_rise_mem_iff, CompareStrategies.gap_up_mem_iff,
      CompareStrategies.rsi_overbought_mem_iff, CompareStrategies.tags_eq_nil_iff]
    tauto

/-- Witness for C5: at z = 0, pc = -4, gap = 3, rsi = 50 both an
extreme-drop (buy) and a gap-up (sell) tag fire, the signal resolves MIXED,
and with threshold 1 the kernel takes the BUY action. -/
theorem c5_severity_sum_and_direction_witness :
    (CompareStrategies.tagsAndSeverity 0 (-4) 3 50).1 ≠ [] ∧
      (1 : ℚ) ≤ (CompareStrategies.tagsAndSeverity 0 (-4) 3 50).2 ∧
      (CompareStrategies.check_signals_core 0 (-4) 3 50 1).action =
        CompareStrategies.Action.BUY := by
  have hbuy : CompareStrategies.Tag.extreme_drop ∈
      (CompareStrategies.tagsAndSeverity 0 (-4) 3 50).1 :=
    (CompareStrategies.extreme_drop_mem_iff 0 (-4) 3 50).2 (by norm_num)
  have hsell : CompareStrategies.Tag.gap_up ∈
      (CompareStrategies.tagsAndSeverity 0 (-4) 3 50).1 :=
    (CompareStrategies.gap_up_mem_iff 0 (-4) 3 50).2 (by norm_num)
  have hmixed : CompareStrategies.signal_type
      (CompareStrategies.tagsAndSeverity 0 (-4) 3 50).1 =
        some CompareStrategies.SigType.MIXED :=
    ((c5_severity_sum_and_direction.2.1 0 (-4) 3 50).2.2.1).2
      ⟨Or.inr (Or.inl hbuy), Or.inr (Or.inr (Or.inl hsell))⟩
  have hne : (CompareStrategies.tagsAndSeverity 0 (-4) 3 50).1 ≠ [] :=
    fun hnil => by rw [hnil] at hbuy; exact absurd hbuy (List.not_mem_nil _)
  have hsev : (1 : ℚ) ≤ (CompareStrategies.tagsAndSeverity 0 (-4) 3 50).2 := by
    rw [c5_severity_sum_and_direction.1 0 (-4) 3 50]
    norm_num [CompareStrategies.zBuyContrib, CompareStrategies.dropContrib,
      CompareStrategies.gapDownContrib, CompareStrategies.rsiLowContrib,
      CompareStrategies.zSellContrib, CompareStrategies.riseContrib,
      CompareStrategies.gapUpContrib, CompareStrategies.rsiHighContrib]
  exact ⟨hne, hsev,
    c5_severity_sum_and_direction.2.2 0 (-4) 3 50 1 hne hsev hmixed⟩

/-- C6: when tags are present but the summed severity is below the
threshold, the kernel returns HOLD with the severity-rejection reason
carrying the actual severity and threshold (not the silent no-signal path),
and that severity is strictly positive — so the report is distinguishable
from the no-tags case, whose severity is zero. -/
theorem c6_below_threshold_reports_rejection (z pc gap rsi min_severity : ℚ)
    (h1 : (CompareStrategies.tagsAndSeverity z pc gap rsi).1 ≠ [])
    (h2 : (CompareStrategies.tagsAndSeverity z pc gap rsi).2 < min_severity) :
    CompareStrategies.check_signals_core z pc gap rsi min_severity =
      { action := CompareStrategies.Action.HOLD,
        reason := CompareStrategies.CheckReason.belowSeverity
          (CompareStrategies.tagsAndSeverity z pc gap rsi).2 min_severity } ∧
      0 < (CompareStrategies.tagsAndSeverity z pc gap rsi).2 :=
  ⟨CompareStrategies.check_core_reject z pc gap rsi min_severity h2,
    CompareStrategies.severity_pos_of_tags z pc gap rsi h1⟩

/-- Witness for C6: rsi = 29 fires the rsi_oversold tag with severity 1/10,
below the default threshold 1; the kernel reports the rejection. -/
theorem c6_below_threshold_reports_rejection_witness :
    (CompareStrategies.tagsAndSeverity 0 0 0 29).1 ≠ [] ∧
      (CompareStrategies.tagsAndSeverity 0 0 0 29).2 < 1 ∧
      (CompareStrategies.check_signals_core 0 0 0 29 1).action =
        CompareStrategies.Action.HOLD := by
  have h1 : (CompareStrategies.tagsAndSeverity 0 0 0 29).1 ≠ [] := by
    intro hnil
    have hm : CompareStrategies.Tag.rsi_oversold ∈
        (CompareStrategies.tagsAndSeverity 0 0 0 29).1 :=
      (CompareStrategies.rsi_oversold_mem_iff 0 0 0 29).2 (by norm_num)
    rw [hnil] at hm
    exact absurd hm (List.not_mem_nil _)
  have h2 : (CompareStrategies.tagsAndSeverity 0 0 0 29).2 < 1 := by
    rw [CompareStrategies.severity_eq]
    norm_num [CompareStrategies.zBuyContrib, CompareStrategies.dropContrib,
      CompareStrategies.gapDownContrib, CompareStrategies.rsiLowContrib,
      CompareStrategies.zSellContrib, CompareStrategies.riseContrib,
      CompareStrategies.gapUpContrib, CompareStrategies.rsiHighContrib]
  refine ⟨h1, h2, ?_⟩
  rw [(c6_below_threshold_reports_rejection 0 0 0 29 1 h1 h2).1]

namespace Alerts

theorem create_alert_fst_matches (cfg_tp : ℚ) (cfg_days : ℤ)
    (store : List Alert) (event : RsiCrossUnderEvent) :
    matchesEvent event (create_alert cfg_tp cfg_days store event).1 = true := by
  unfold create_alert
  cases hfind : store.find? (matchesEvent event) with
  | some a =>
    simp only []
    exact List.find?_some hfind
  | none =>
    simp only [matchesEvent]
    rw [Bool.and_eq_true]
    exact ⟨beq_self_eq_true _, beq_self_eq_true _⟩

/-- The alert row `create_alert` builds for an event (lines 126-134). -/
def eventAlert (cfg_tp : ℚ) (cfg_days : ℤ) (event : RsiCrossUnderEvent) : Alert :=
  { symbol := event.symbol, ts := event.ts, rsi_value := event.rsi_value,
    price := event.price, status := "pending", take_profit_pct := cfg_tp,
    max_holding_days := cfg_days }

theorem eventAlert_matches (cfg_tp : ℚ) (cfg_days : ℤ)
    (event : RsiCrossUnderEvent) :
    matchesEvent event (eventAlert cfg_tp cfg_days event) = true := by
  simp only [matchesEvent, eventAlert]
  rw [Bool.and_eq_true]
  exact ⟨beq_self_eq_true _, beq_self_eq_true _⟩

theorem create_alert_of_found (cfg_tp : ℚ) (cfg_days : ℤ)
    (store : List Alert) (event : RsiCrossUnderEvent) (a : Alert)
    (hfind : store.find? (matchesEvent event) = some a) :
    create_alert cfg_tp cfg_days store event = (a, store) := by
  unfold create_alert
  rw [hfind]

theorem create_alert_of_missing (cfg_tp : ℚ) (cfg_days : ℤ)
    (store : List Alert) (event : RsiCrossUnderEvent)
    (hfind : store.find? (matchesEvent event) = none) :
    create_alert cfg_tp cfg_days store event =
      (eventAlert cfg_tp cfg_days event,
        store ++ [eventAlert cfg_tp cfg_days event]) := by
  unfold create_alert
  rw [hfind]
  rfl

theorem create_alert_idempotent (cfg_tp : ℚ) (cfg_days : ℤ)
    (store : List Alert) (event : RsiCrossUnderEvent) :
    create_alert cfg_tp cfg_days
        (create_alert cfg_tp cfg_days store event).2 event =
      create_alert cfg_tp cfg_days store event := by
  cases hfind : store.find? (matchesEvent event) with
  | some a =>
    have key := create_alert_of_found cfg_tp cfg_days store event a hfind
    rw [key]
    show create_alert cfg_tp cfg_days store event = (a, store)
    exact key
  | none =>
    have key := create_alert_of_missing cfg_tp cfg_days store event hfind
    rw [key]
    show create_alert cfg_tp cfg_days
        (store ++ [eventAlert cfg_tp cfg_days event]) event =
      (eventAlert cfg_tp cfg_days event,
        store ++ [eventAlert cfg_tp cfg_days event])
    have hfind2 : (store ++ [eventAlert cfg_tp cfg_days event]).find?
        (matchesEvent event) = some (eventAlert cfg_tp cfg_days event) := by
      rw [List.find?_append, hfind]
      simp only [Option.none_or, Option.none_orElse]
      rw [List.find?_cons_of_pos _ (eventAlert_matches cfg_tp cfg_days event)]
    exact create_alert_of_found cfg_tp cfg_days _ event _ hfind2

theorem create_alert_stores_once (cfg_tp : ℚ) (cfg_days : ℤ)
    (store : List Alert) (event : RsiCrossUnderEvent)
    (h : ∀ a ∈ store, matchesEvent event a = false) :
    ((create_alert cfg_tp cfg_days store event).2.filter
      (matchesEvent event)).length = 1 := by
  have hfind : store.find? (matchesEvent event) = none :=
    List.find?_eq_none.2 (fun a ha => by rw [h a ha]; exact Bool.false_ne_true)
  rw [create_alert_of_missing cfg_tp cfg_days store event hfind]
  rw [List.filter_append,
    List.filter_eq_nil_iff.2 (fun a ha => by rw [h a ha]; exact Bool.false_ne_true)]
  simp [List.filter, eventAlert_matches cfg_tp cfg_days event]

end Alerts

namespace Trading

theorem execute_buy_skips_existing_position (ctx : BuyContext)
    (h : ctx.hasPosition = true) :
    execute_buy_order ctx = (none, false) := by
  unfold execute_buy_order
  by_cases h1 : ctx.enabled <;> by_cases h2 : ctx.clientOk <;>
    simp [h1, h2, h]

end Trading

namespace Realtime

theorem update_candles_mem (fallback : ℤ) (store : List App.Candle)
    (new_candles : List App.Candle) :
    ∀ c ∈ update_candles_for_symbol fallback store new_candles,
      c ∈ store ∨ sinceOf fallback store < c.ts := by
  unfold update_candles_for_symbol
  suffices h : ∀ (new s : List App.Candle),
      (∀ c ∈ s, c ∈ store ∨ sinceOf fallback store < c.ts) →
      ∀ c ∈ new.foldl
        (fun s c =>
          if sinceOf fallback store < c.ts then
            if s.any (fun c' => c'.ts == c.ts) then s else s ++ [c]
          else s) s,
        c ∈ store ∨ sinceOf fallback store < c.ts by
    exact h new_candles store (fun c hc => Or.inl hc)
  intro new
  induction new with
  | nil => intro s hs c hc; exact hs c hc
  | cons d rest ih =>
    intro s hs c hc
    rw [List.foldl_cons] at hc
    refine ih _ ?_ c hc
    intro x hx
    by_cases hd : sinceOf fallback store < d.ts
    · rw [if_pos hd] at hx
      by_cases hdup : s.any (fun c' => c'.ts == d.ts)
      · rw [if_pos hdup] at hx
        exact hs x hx
      · rw [if_neg hdup] at hx
        rcases List.mem_append.1 hx with hx | hx
        · exact hs x hx
        · rw [List.mem_singleton.1 hx]
          exact Or.inr hd
    · rw [if_neg hd] at hx
      exact hs x hx

theorem update_candles_rejects_stale (fallback : ℤ) (store : List App.Candle)
    (b : App.Candle) (h : b.ts ≤ sinceOf fallback store) :
    update_candles_for_symbol fallback store [b] = store := by
  unfold update_candles_for_symbol
  simp only [List.foldl_cons, List.foldl_nil]
  rw [if_neg (not_lt.2 h)]

end Realtime

/-- C7: a signal keyed by (symbol, timestamp) triggers at most one entry:
calling `create_alert` a second time with the same event leaves the store
unchanged and returns the very same alert, a fresh key stores exactly one
matching row, and a buy order for a symbol with an existing open position is
never submitted (the function returns no order and `False`). -/
theorem c7_idempotent_entry (cfg_tp : ℚ) (cfg_days : ℤ)
    (store : List Alerts.Alert) (event : Alerts.RsiCrossUnderEvent)
    (ctx : Trading.BuyContext)
    (hstore : ∀ a ∈ store, Alerts.matchesEvent event a = false)
    (hpos : ctx.hasPosition = true) :
    Alerts.create_alert cfg_tp cfg_days
        (Alerts.create_alert cfg_tp cfg_days store event).2 event =
      Alerts.create_alert cfg_tp cfg_days store event ∧
    ((Alerts.create_alert cfg_tp cfg_days store event).2.filter
      (Alerts.matchesEvent event)).length = 1 ∧
    Trading.execute_buy_order ctx = (none, false) :=
  ⟨Alerts.create_alert_idempotent cfg_tp cfg_days store event,
    Alerts.create_alert_stores_once cfg_tp cfg_days store event hstore,
    Trading.execute_buy_skips_existing_position ctx hpos⟩

/-- Witness for C7: an empty alert store with a concrete event, and a buy
context that already holds a position. -/
theorem c7_idempotent_entry_witness :
    (([] : List Alerts.Alert).filter
        (Alerts.matchesEvent
          { symbol := "AAPL", ts := 1, rsi_value := 25, price := 100 })).length
        = 0 ∧
      Trading.execute_buy_order
        { enabled := true, clientOk := true, hasPosition := true,
          buyingPower := some 1000, currentPrice := some 100,
          position_size := 500 } = (none, false) :=
  ⟨rfl,
    (c7_idempotent_entry 5 3 []
      { symbol := "AAPL", ts := 1, rsi_value := 25, price := 100 }
      { enabled := true, clientOk := true, hasPosition := true,
        buyingPower := some 1000, currentPrice := some 100,
        position_size := 500 }
      (fun a ha => absurd ha (List.not_mem_nil a)) rfl).2.2⟩

/-- C9: a new bar whose timestamp is not strictly greater than the last seen
timestamp is rejected by the ingestion check — the candle store and hence the
oscillator input series are unchanged — and every candle the update ever adds
has a timestamp strictly greater than the watermark, so a stale or duplicate
bar can never reach the smoothed averages (which are re-derived from the
stored history on every computation). -/
theorem c9_out_of_order_bar_rejected (period : ℕ) (fallback : ℤ)
    (store : List App.Candle) (b : App.Candle)
    (h : b.ts ≤ Realtime.sinceOf fallback store) :
    Realtime.update_candles_for_symbol fallback store [b] = store ∧
    Indicators.compute_rsi_wilder period
        ((Realtime.update_candles_for_symbol fallback store [b]).map
          App.Candle.close) =
      Indicators.compute_rsi_wilder period (store.map App.Candle.close) ∧
    (∀ new_candles : List App.Candle,
      ∀ c ∈ Realtime.update_candles_for_symbol fallback store new_candles,
        c ∈ store ∨ Realtime.sinceOf fallback store < c.ts) := by
  have he := Realtime.update_candles_rejects_stale fallback store b h
  exact ⟨he, by rw [he],
    fun new_candles => Realtime.update_candles_mem fallback store new_candles⟩

/-- Witness for C9: a store whose last candle is at timestamp 5 rejects a
duplicate bar at timestamp 5. -/
theorem c9_out_of_order_bar_rejected_witness :
    ({ ts := 5, high := 10, low := 9, close := 10 } : App.Candle).ts ≤
        Realtime.sinceOf 0 [{ ts := 5, high := 10, low := 9, close := 10 }] ∧
      Realtime.update_candles_for_symbol 0
          [{ ts := 5, high := 10, low := 9, close := 10 }]
          [{ ts := 5, high := 10, low := 9, close := 10 }] =
        [{ ts := 5, high := 10, low := 9, close := 10 }] :=
  ⟨by norm_num [Realtime.sinceOf],
    (c9_out_of_order_bar_rejected 14 0
      [{ ts := 5, high := 10, low := 9, close := 10 }]
      { ts := 5, high := 10, low := 9, close := 10 }
      (by norm_num [Realtime.sinceOf])).1⟩

namespace BacktestEngine

theorem exitScan_take_profit_first (tp_price : ℚ) (max_date : ℤ) :
    ∀ (l : List App.Candle) (c : App.Candle),
      exitScan tp_price max_date l = some (c, ExitWhy.take_profit) →
      tp_price ≤ c.high ∧ ∃ pre post, l = pre ++ c :: post ∧
        ∀ c' ∈ pre, c'.high < tp_price ∧ c'.ts < max_date := by
  intro l
  induction l with
  | nil => intro c hc; simp [exitScan] at hc
  | cons c0 rest ih =>
    intro c hc
    rw [exitScan] at hc
    by_cases h1 : tp_price ≤ c0.high
    · rw [if_pos h1] at hc
      have hc0 : c0 = c := congrArg Prod.fst (Option.some_inj.1 hc)
      subst hc0
      exact ⟨h1, [], rest, rfl, by simp⟩
    · rw [if_neg h1] at hc
      by_cases h2 : max_date ≤ c0.ts
      · rw [if_pos h2] at hc
        exact absurd (congrArg Prod.snd (Option.some_inj.1 hc)) (by simp)
      · rw [if_neg h2] at hc
        obtain ⟨hh, pre, post, heq, hpre⟩ := ih c hc
        refine ⟨hh, c0 :: pre, post, by rw [List.cons_append, heq], ?_⟩
        intro c' hc'
        rcases List.mem_cons.1 hc' with rfl | hmem
        · exact ⟨lt_of_not_le h1, lt_of_not_le h2⟩
        · exact hpre c' hmem

theorem find_exit_take_profit (entry_time : ℤ)
    (entry_price take_profit_pct : ℚ) (max_holding_days : ℤ)
    (candles : List App.Candle) (c : App.Candle)
    (h : find_exit_candle entry_time entry_price take_profit_pct
        max_holding_days candles = (some c, ExitWhy.take_profit)) :
    entry_price * (1 + take_profit_pct / 100) ≤ c.high ∧
      ∃ pre post,
        candles.filter (fun x => entry_time < x.ts) = pre ++ c :: post ∧
        ∀ c' ∈ pre, c'.high < entry_price * (1 + take_profit_pct / 100) ∧
          c'.ts < entry_time + max_holding_days := by
  simp only [find_exit_candle] at h
  split at h
  · rename_i hafter
    exact absurd (congrArg Prod.fst h) (by simp)
  · rename_i hne
    split at h
    · rename_i c' why hscan
      have h1 := congrArg Prod.fst h
      have h2 := congrArg Prod.snd h
      simp only [] at h1 h2
      have hc' : c' = c := Option.some_inj.1 h1
      subst hc'
      subst h2
      obtain ⟨hh, pre, post, heq, hpre⟩ :=
        exitScan_take_profit_first _ _ _ c' hscan
      exact ⟨hh, pre, post, heq, hpre⟩
    · rename_i hscan
      split at h
      · exact absurd (congrArg Prod.snd h) (by simp)
      · exact absurd (congrArg Prod.fst h) (by simp)

theorem simulate_trade_fields (alert : AlertRow) (candles : List App.Candle)
    (t : Trade) (h : simulate_trade alert candles = some t) :
    ∃ entry_candle exit_candle why,
      find_entry_candle alert.ts candles = some entry_candle ∧
      find_exit_candle entry_candle.ts entry_candle.close
        alert.take_profit_pct alert.max_holding_days candles =
        (some exit_candle, why) ∧
      t = { entry_time := entry_candle.ts
            entry_price := entry_candle.close
            exit_time := exit_candle.ts
            exit_price := exit_price_rule why
              (entry_candle.close * (1 + alert.take_profit_pct / 100))
              exit_candle
            exit_reason := why
            pnl := (exit_price_rule why
                (entry_candle.close * (1 + alert.take_profit_pct / 100))
                exit_candle - entry_candle.close) / entry_candle.close * 100 } := by
  simp only [simulate_trade] at h
  split at h
  · exact absurd h (by simp)
  · rename_i entry_candle hentry
    split at h
    · exact absurd h (by simp)
    · rename_i exit_candle why hexit
      exact ⟨entry_candle, exit_candle, why, hentry, hexit,
        (Option.some_inj.1 h).symm⟩

theorem pnl_lt_of_exit_lt (entry exitp pct : ℚ) (hpos : 0 < entry)
    (h : exitp < entry * (1 + pct / 100)) :
    (exitp - entry) / entry * 100 < pct := by
  rw [div_mul_eq_mul_div, div_lt_iff₀ hpos]
  have h100 := mul_lt_mul_of_pos_right h (by norm_num : (0 : ℚ) < 100)
  nlinarith [h100]

end BacktestEngine

/-- C10: a take-profit exit fires on the first post-entry candle whose high
reaches `entry_price * (1 + take_profit_pct / 100)` (every earlier candle is
below the target and before the max-holding date), the recorded exit price is
`min(target, close)` of that candle, and whenever the exit candle closes
below the target, the recorded exit price is strictly below the target and
the trade's pnl is strictly below `take_profit_pct`. -/
theorem c10_take_profit_exit_capped_by_close :
    (∀ (entry_time : ℤ) (entry_price take_profit_pct : ℚ)
        (max_holding_days : ℤ) (candles : List App.Candle) (c : App.Candle),
      BacktestEngine.find_exit_candle entry_time entry_price take_profit_pct
          max_holding_days candles =
        (some c, BacktestEngine.ExitWhy.take_profit) →
      entry_price * (1 + take_profit_pct / 100) ≤ c.high ∧
        ∃ pre post,
          candles.filter (fun x => entry_time < x.ts) = pre ++ c :: post ∧
          ∀ c' ∈ pre, c'.high < entry_price * (1 + take_profit_pct / 100) ∧
            c'.ts < entry_time + max_holding_days) ∧
    (∀ (tp_price : ℚ) (c : App.Candle),
      BacktestEngine.exit_price_rule BacktestEngine.ExitWhy.take_profit
        tp_price c = min tp_price c.close) ∧
    (∀ (alert : BacktestEngine.AlertRow) (candles : List App.Candle)
        (t : BacktestEngine.Trade),
      BacktestEngine.simulate_trade alert candles = some t →
      t.exit_reason = BacktestEngine.ExitWhy.take_profit →
      0 < t.entry_price →
      t.exit_price ≤ t.entry_price * (1 + alert.take_profit_pct / 100) ∧
        (t.exit_price < t.entry_price * (1 + alert.take_profit_pct / 100) →
          t.pnl < alert.take_profit_pct)) := by
  refine ⟨BacktestEngine.find_exit_take_profit, ?_, ?_⟩
  · intro tp_price c
    unfold BacktestEngine.exit_price_rule
    rw [if_pos rfl]
  · intro alert candles t hsim hwhy hpos
    obtain ⟨entry_candle, exit_candle, why, _, _, ht⟩ :=
      BacktestEngine.simulate_trade_fields alert candles t hsim
    have hwhy' : why = BacktestEngine.ExitWhy.take_profit := by
      rw [ht] at hwhy
      exact hwhy
    subst hwhy'
    have hentry : t.entry_price = entry_candle.close := by rw [ht]
    have hexit : t.exit_price =
        min (entry_candle.close * (1 + alert.take_profit_pct / 100))
          exit_candle.close := by
      rw [ht]
      simp [BacktestEngine.exit_price_rule]
    have hpnl : t.pnl = (t.exit_price - t.entry_price) / t.entry_price * 100 := by
      rw [ht]
    constructor
    · rw [hexit, hentry]
      exact min_le_left _ _
    · intro hlt
      rw [hpnl]
      exact BacktestEngine.pnl_lt_of_exit_lt t.entry_price t.exit_price
        alert.take_profit_pct hpos (by rw [hentry] at hlt ⊢; exact hlt)

/-- Witness for C10: a two-candle history where the trade enters at close 100
and the next candle's high 110 reaches the 5% target 105 but closes at 103 —
the recorded exit price is 103 and the pnl 3% is strictly below 5%. -/
theorem c10_take_profit_exit_capped_by_close_witness :
    BacktestEngine.simulate_trade
        { ts := 0, take_profit_pct := 5, max_holding_days := 10 }
        [{ ts := 1, high := 101, low := 99, close := 100 },
         { ts := 2, high := 110, low := 100, close := 103 }] =
      some { entry_time := 1, entry_price := 100, exit_time := 2,
             exit_price := 103,
             exit_reason := BacktestEngine.ExitWhy.take_profit, pnl := 3 } ∧
      (3 : ℚ) < 5 := by
  have hsim : BacktestEngine.simulate_trade
      { ts := 0, take_profit_pct := 5, max_holding_days := 10 }
      [{ ts := 1, high := 101, low := 99, close := 100 },
       { ts := 2, high := 110, low := 100, close := 103 }] =
      some { entry_time := 1, entry_price := 100, exit_time := 2,
             exit_price := 103,
             exit_reason := BacktestEngine.ExitWhy.take_profit, pnl := 3 } := by
    norm_num [BacktestEngine.simulate_trade, BacktestEngine.find_entry_candle,
      BacktestEngine.find_exit_candle, BacktestEngine.exitScan,
      BacktestEngine.exit_price_rule, List.filter]
  refine ⟨hsim, ?_⟩
  have hp := (c10_take_profit_exit_capped_by_close.2.2
    { ts := 0, take_profit_pct := 5, max_holding_days := 10 }
    [{ ts := 1, high := 101, low := 99, close := 100 },
     { ts := 2, high := 110, low := 100, close := 103 }]
    { entry_time := 1, entry_price := 100, exit_time := 2, exit_price := 103,
      exit_reason := BacktestEngine.ExitWhy.take_profit, pnl := 3 }
    hsim rfl (by norm_num)).2 (by norm_num)
  exact hp
